import Mathlib

/-!
# HTTP/2 flow data: stream table and stream-memory accounting

Shallow embedding of `src/service_inspectors/http2_inspect/http2_flow_data.cc`
(class `Http2FlowData`): `find_stream`, `get_processing_stream`,
`delete_processing_stream`, `set_processing_stream_id`,
`update_stream_memory_allocations`, `update_stream_memory_deallocations` and the
destructor.

Conventions of the embedding.

* The object is an explicit record; a member function is a function from the record
  to the new record (and a result).  A `nullptr` result is `none`.
* `assert(c)` is read as in a build with assertions enabled: when `c` is false the call
  does not complete, which is the outer `none` of an `Option`.  The same outer `none`
  is used for the remainder by zero in `update_stream_memory_allocations`.
* Counters are natural numbers.  In the build with assertions every subtraction is
  preceded by an assertion that excludes the wrap below zero, and
  `concurrent_streams += 1` runs only when `concurrent_streams <
  concurrent_streams_limit`, so that these operations agree with the unsigned arithmetic
  of the source.
* In a build with `NDEBUG` the assertions are compiled out.  The one place where the two
  builds part on a sequence of `get_processing_stream` and `delete_processing_stream`
  calls is `delete_processing_stream`: `delete_processing_stream_ndebug` always returns,
  and its decrement wraps as that of a `uint32_t`; `step_ndebug` and `run_ndebug` are the
  calls of that build.  Statements about the counters after deletions are made for
  `run_ndebug`, or for both.
* Per-direction arrays indexed by `SourceId` are records with a client and a server
  component.
-/

namespace Snort

/-- Modelled from the spec: `Http2Enums::STREAM_MEMORY_TRACKING_INCREMENT` is declared in
`http2_enum.h`, which is not among the sources.  The spec gives INCREMENT = 25 and the
comments of the source speak of blocks of 25. -/
def STREAM_MEMORY_TRACKING_INCREMENT : Nat := 25

/-- Modelled from the spec: `Http2Enums::NO_STREAM_ID` is declared in `http2_enum.h`, which
is not among the sources.  It is a value that no frame carries as a stream id (stream ids
have 31 bits); it is only used as the initial `processing_stream_id`. -/
def NO_STREAM_ID : Nat := 0xFFFFFFFF

/-- The direction of a flow (`HttpCommon::SourceId`). -/
inductive SourceId where
  | SRC_CLIENT
  | SRC_SERVER
deriving DecidableEq, Repr

/-- Modelled from the spec: the frame types of `Http2Enums::FrameType` (`http2_enum.h` is
not among the sources); the ten types the spec lists. -/
inductive FrameType where
  | FT_DATA
  | FT_HEADERS
  | FT_PRIORITY
  | FT_RST_STREAM
  | FT_SETTINGS
  | FT_PUSH_PROMISE
  | FT_PING
  | FT_GOAWAY
  | FT_WINDOW_UPDATE
  | FT_CONTINUATION
deriving DecidableEq, Repr

/-- The infraction codes used by `http2_flow_data.cc`, and `BadPushPromise`, the code that
the spec names for a rejected promised stream id (raised in `http2_push_promise_frame.cc`,
which is not among the sources). -/
inductive Infraction where
  | INF_TOO_MANY_STREAMS
  | INF_INVALID_STREAM_ID
  | INF_BAD_PUSH_PROMISE
deriving DecidableEq, Repr

/-- The event identifiers used by `http2_flow_data.cc`, and the one for `BadPushPromise`. -/
inductive EventSid where
  | EVENT_TOO_MANY_STREAMS
  | EVENT_INVALID_STREAM_ID
  | EVENT_BAD_PUSH_PROMISE
deriving DecidableEq, Repr

/-- A two-element array indexed by `SourceId`. -/
structure Sides (α : Type) where
  client : α
  server : α
deriving DecidableEq, Repr

/-- Read `a[source_id]`. -/
def Sides.get {α : Type} (a : Sides α) : SourceId → α
  | .SRC_CLIENT => a.client
  | .SRC_SERVER => a.server

/-- Write `a[source_id] = v`. -/
def Sides.set {α : Type} (a : Sides α) (source_id : SourceId) (v : α) : Sides α :=
  match source_id with
  | .SRC_CLIENT => { a with client := v }
  | .SRC_SERVER => { a with server := v }

/-- Modelled from the spec: class `Http2Stream` (`http2_stream.h` is not among the sources).
Of a stream this file only reads `get_stream_id()`, the id given to the constructor
`Http2Stream(key, this)`. -/
structure Http2Stream where
  stream_id : Nat
deriving DecidableEq, Repr

/-- Modelled from the spec: the peg counters of `Http2Module` that this file touches
(`http2_module.h` is not among the sources). -/
structure PegCounts where
  PEG_CONCURRENT_SESSIONS : Nat
  PEG_MAX_CONCURRENT_SESSIONS : Nat
  PEG_FLOWS_OVER_STREAM_LIMIT : Nat
  PEG_MAX_CONCURRENT_STREAMS : Nat
deriving DecidableEq, Repr

/-- The members of `Http2FlowData` that the embedded functions read or write, the peg
counters of `Http2Module`, and the record of the amounts passed to the memory accounting
of the base class (`update_allocations`, `update_deallocations`), newest first. -/
structure Http2FlowData where
  streams : List Http2Stream
  concurrent_streams : Nat
  processing_stream_id : Nat
  stream_memory_allocations_tracked : Nat
  frame_type : Sides FrameType
  current_stream : Sides Nat
  frame_data : Sides (List Nat)
  frame_data_size : Sides Nat
  max_stream_id : Sides Nat
  infractions : Sides (List Infraction)
  events : Sides (List EventSid)
  abort_flow : Sides Bool
  delete_stream : Bool
  pegs : PegCounts
  stream_memory_size : Nat
  allocations : List Nat
  deallocations : List Nat
deriving DecidableEq, Repr

namespace Http2FlowData

/-- The static constant `stream_increment_memory_size`:
`stream_memory_size * STREAM_MEMORY_TRACKING_INCREMENT` (source lines 48-49);
`stream_memory_size` is a `sizeof` sum fixed by the platform. -/
def stream_increment_memory_size (s : Http2FlowData) : Nat :=
  s.stream_memory_size * STREAM_MEMORY_TRACKING_INCREMENT

/-- Modelled from the spec: the state of a flow after construction; the member initialisers
are in `http2_flow_data.h`, which is not among the sources.  No streams, no concurrent
streams, one increment of stream memory tracked ("Account for memory for 25 concurrent
streams up front", source line 127).  The initial frame types are never read:
`get_processing_stream` reads `frame_type[source_id]` of the frame being processed. -/
def fresh (sz : Nat) (pegs : PegCounts) : Http2FlowData :=
  { streams := []
    concurrent_streams := 0
    processing_stream_id := NO_STREAM_ID
    stream_memory_allocations_tracked := STREAM_MEMORY_TRACKING_INCREMENT
    frame_type := ⟨FrameType.FT_SETTINGS, FrameType.FT_SETTINGS⟩
    current_stream := ⟨NO_STREAM_ID, NO_STREAM_ID⟩
    frame_data := ⟨[], []⟩
    frame_data_size := ⟨0, 0⟩
    max_stream_id := ⟨0, 0⟩
    infractions := ⟨[], []⟩
    events := ⟨[], []⟩
    abort_flow := ⟨false, false⟩
    delete_stream := false
    pegs := pegs
    stream_memory_size := sz
    allocations := []
    deallocations := [] }

/-- Modelled from the spec: `*infractions[source_id] += code` sets one flag of the bitset
of the direction (`Http2Infractions` is not among the sources). -/
def add_infraction (s : Http2FlowData) (source_id : SourceId) (code : Infraction) :
    Http2FlowData :=
  let flags := s.infractions.get source_id
  let flags1 := if code ∈ flags then flags else code :: flags
  { s with infractions := s.infractions.set source_id flags1 }

/-- Modelled from the spec: `events[source_id]->create_event(sid)` puts the identifier on
the event queue of the direction (`Http2EventGen` is not among the sources). -/
def create_event (s : Http2FlowData) (source_id : SourceId) (sid : EventSid) :
    Http2FlowData :=
  { s with events := s.events.set source_id (s.events.get source_id ++ [sid]) }

/-- Modelled from the spec: `FlowData::update_allocations(n)` of the base class charges
`n` bytes to the accounting subsystem; the charge is recorded. -/
def update_allocations (s : Http2FlowData) (n : Nat) : Http2FlowData :=
  { s with allocations := n :: s.allocations }

/-- Modelled from the spec: `FlowData::update_deallocations(n)` of the base class releases
`n` bytes from the accounting subsystem; the release is recorded. -/
def update_deallocations (s : Http2FlowData) (n : Nat) : Http2FlowData :=
  { s with deallocations := n :: s.deallocations }

/-- The loop of `find_stream` (source lines 149-155) over the list of streams. -/
def find_in : List Http2Stream → Nat → Option Http2Stream
  | [], _ => none
  | stream :: rest, key =>
    if stream.stream_id = key then some stream else find_in rest key

/-- `Http2FlowData::find_stream` (source lines 147-156). -/
def find_stream (s : Http2FlowData) (key : Nat) : Option Http2Stream :=
  find_in s.streams key

/-- `Http2FlowData::update_stream_memory_allocations` (source lines 132-138). -/
def update_stream_memory_allocations (s : Http2FlowData) : Option Http2FlowData :=
  -- assert(concurrent_streams > stream_memory_allocations_tracked);
  if ¬ (s.concurrent_streams > s.stream_memory_allocations_tracked) then none
  -- the remainder of the next assertion is undefined for a zero divisor
  else if s.stream_memory_allocations_tracked = 0 then none
  -- assert(concurrent_streams % stream_memory_allocations_tracked == 1);
  else if ¬ (s.concurrent_streams % s.stream_memory_allocations_tracked = 1) then none
  else
    let s1 := s.update_allocations s.stream_increment_memory_size
    some { s1 with stream_memory_allocations_tracked :=
             s1.stream_memory_allocations_tracked + STREAM_MEMORY_TRACKING_INCREMENT }

/-- `Http2FlowData::update_stream_memory_deallocations` (source lines 140-145). -/
def update_stream_memory_deallocations (s : Http2FlowData) : Option Http2FlowData :=
  -- assert(stream_memory_allocations_tracked >= STREAM_MEMORY_TRACKING_INCREMENT);
  if ¬ (s.stream_memory_allocations_tracked ≥ STREAM_MEMORY_TRACKING_INCREMENT) then none
  else
    let s1 := s.update_deallocations s.stream_increment_memory_size
    some { s1 with stream_memory_allocations_tracked :=
             s1.stream_memory_allocations_tracked - STREAM_MEMORY_TRACKING_INCREMENT }

/-- The part of `get_processing_stream` from "Allocate new stream" to the end (source
lines 207-221), reached when no check has refused the stream. -/
def allocate_new_stream (s : Http2FlowData) (key : Nat) :
    Option (Http2FlowData × Option Http2Stream) :=
  let stream : Http2Stream := { stream_id := key }
  -- streams.emplace_front(stream);
  let s1 := { s with streams := stream :: s.streams }
  -- stream 0 does not count against stream limit
  if key > 0 then
    let s2 := { s1 with concurrent_streams := s1.concurrent_streams + 1 }
    let s3 :=
      if s2.concurrent_streams > s2.pegs.PEG_MAX_CONCURRENT_STREAMS then
        { s2 with pegs := { s2.pegs with
            PEG_MAX_CONCURRENT_STREAMS := s2.pegs.PEG_MAX_CONCURRENT_STREAMS + 1 } }
      else s2
    if s3.concurrent_streams > s3.stream_memory_allocations_tracked then
      match s3.update_stream_memory_allocations with
      | none => none
      | some s4 => some (s4, some stream)
    else some (s3, some stream)
  else some (s1, some stream)

/-- `Http2FlowData::get_processing_stream` (source lines 158-222).  The result is the new
state and the returned pointer (`none` for `nullptr`). -/
def get_processing_stream (s : Http2FlowData) (source_id : SourceId)
    (concurrent_streams_limit : Nat) : Option (Http2FlowData × Option Http2Stream) :=
  let key := s.processing_stream_id
  match s.find_stream key with
  | some stream => some (s, some stream)
  | none =>
    if s.concurrent_streams ≥ concurrent_streams_limit then
      let s1 := s.add_infraction source_id Infraction.INF_TOO_MANY_STREAMS
      let s2 := s1.create_event source_id EventSid.EVENT_TOO_MANY_STREAMS
      let s3 := { s2 with pegs := { s2.pegs with
                    PEG_FLOWS_OVER_STREAM_LIMIT := s2.pegs.PEG_FLOWS_OVER_STREAM_LIMIT + 1 } }
      let s4 := { s3 with abort_flow := s3.abort_flow.set SourceId.SRC_CLIENT true }
      let s5 := { s4 with abort_flow := s4.abort_flow.set SourceId.SRC_SERVER true }
      some (s5, none)
    -- Verify stream id is bigger than all previous streams initiated by same side
    else if key ≠ 0 then
      let non_housekeeping_frame : Bool :=
        decide (s.frame_type.get source_id = FrameType.FT_HEADERS) ||
        decide (s.frame_type.get source_id = FrameType.FT_DATA) ||
        decide (s.frame_type.get source_id = FrameType.FT_PUSH_PROMISE)
      if non_housekeeping_frame then
        let is_on_expected_side : Bool :=
          (decide (key % 2 ≠ 0) && decide (source_id = SourceId.SRC_CLIENT)) ||
          (decide (key % 2 = 0) && decide (source_id = SourceId.SRC_SERVER))
        if is_on_expected_side then
          if key ≤ s.max_stream_id.get source_id then
            let s1 := s.add_infraction source_id Infraction.INF_INVALID_STREAM_ID
            let s2 := s1.create_event source_id EventSid.EVENT_INVALID_STREAM_ID
            some (s2, none)
          else
            allocate_new_stream { s with max_stream_id := s.max_stream_id.set source_id key } key
        else allocate_new_stream s key
      else
        -- housekeeping frame: delete stream after this frame is evaluated
        allocate_new_stream { s with delete_stream := true } key
    else allocate_new_stream s key

/-- The loop of `delete_processing_stream` (source lines 227-238) over the list: erase the
first stream whose id is `key`; `none` when the loop ends without a match. -/
def erase_stream : List Http2Stream → Nat → Option (List Http2Stream)
  | [], _ => none
  | stream :: rest, key =>
    if stream.stream_id = key then some rest
    else match erase_stream rest key with
      | none => none
      | some rest1 => some (stream :: rest1)

/-- `Http2FlowData::delete_processing_stream` (source lines 224-240) in a build with
assertions: the call does not complete when no stream has the id (`assert(false)`) or
when `concurrent_streams` is 0 (`assert(concurrent_streams > 0)`).  The build with
`NDEBUG` is `delete_processing_stream_ndebug`; where this function completes the two
agree (`delete_processing_stream_ndebug_eq`). -/
def delete_processing_stream (s : Http2FlowData) : Option Http2FlowData :=
  match erase_stream s.streams s.processing_stream_id with
  -- assert(false);
  | none => none
  | some rest =>
    let s1 := { s with streams := rest }
    let s2 := { s1 with delete_stream := false }
    -- assert(concurrent_streams > 0);
    if ¬ (s2.concurrent_streams > 0) then none
    else some { s2 with concurrent_streams := s2.concurrent_streams - 1 }

/-- What a call of the static function `Http2PushPromiseFrame::get_promised_stream_id
(events, infractions, data_buffer, data_len)` leaves in the two accumulators it is given,
and the stream id it returns. -/
structure PromisedStreamId where
  events : List EventSid
  infractions : List Infraction
  id : Nat
deriving DecidableEq, Repr

/-- `Http2FlowData::set_processing_stream_id` (source lines 262-273).  The function
`Http2PushPromiseFrame::get_promised_stream_id` is in `http2_push_promise_frame.cc`, which
is not among the sources; it is the parameter `get_promised_stream_id`, applied to the
accumulators of the side, to `frame_data[source_id]` and to `frame_data_size[source_id]`. -/
def set_processing_stream_id
    (get_promised_stream_id : List EventSid → List Infraction → List Nat → Nat →
      PromisedStreamId)
    (s : Http2FlowData) (source_id : SourceId) : Option Http2FlowData :=
  -- assert(processing_stream_id == NO_STREAM_ID);
  if ¬ (s.processing_stream_id = NO_STREAM_ID) then none
  else
    let s1 :=
      if s.frame_type.get source_id = FrameType.FT_PUSH_PROMISE then
        let r := get_promised_stream_id (s.events.get source_id) (s.infractions.get source_id)
          (s.frame_data.get source_id) (s.frame_data_size.get source_id)
        { s with
            events := s.events.set source_id r.events
            infractions := s.infractions.set source_id r.infractions
            processing_stream_id := r.id }
      else s
    if s1.processing_stream_id = NO_STREAM_ID then
      some { s1 with processing_stream_id := s1.current_stream.get source_id }
    else some s1

/-- The loop at the end of the destructor (source lines 107-108), with a bound on the
number of iterations; `none` when the bound is used up before the loop condition is
false, or when an assertion fails. -/
def deallocation_loop : Nat → Http2FlowData → Option Http2FlowData
  | 0, s =>
    if s.stream_memory_allocations_tracked > STREAM_MEMORY_TRACKING_INCREMENT then none
    else some s
  | fuel + 1, s =>
    if s.stream_memory_allocations_tracked > STREAM_MEMORY_TRACKING_INCREMENT then
      match s.update_stream_memory_deallocations with
      | none => none
      | some s1 => deallocation_loop fuel s1
    else some s

/-- The states after each iteration of the loop at the end of the destructor, in order. -/
def deallocation_loop_states : Nat → Http2FlowData → List Http2FlowData
  | 0, _ => []
  | fuel + 1, s =>
    if s.stream_memory_allocations_tracked > STREAM_MEMORY_TRACKING_INCREMENT then
      match s.update_stream_memory_deallocations with
      | none => []
      | some s1 => s1 :: deallocation_loop_states fuel s1
    else []

/-- The destructor `Http2FlowData::~Http2FlowData` up to the de-accounting loop (source
lines 92-104): the session peg counter, the release of the per-direction accumulators and
of the streams. -/
def destructor_release (s : Http2FlowData) : Http2FlowData :=
  let s1 :=
    if s.pegs.PEG_CONCURRENT_SESSIONS > 0 then
      { s with pegs := { s.pegs with
          PEG_CONCURRENT_SESSIONS := s.pegs.PEG_CONCURRENT_SESSIONS - 1 } }
    else s
  let s2 := { s1 with infractions := ⟨[], []⟩, events := ⟨[], []⟩ }
  { s2 with streams := [] }

/-- `Http2FlowData::~Http2FlowData` (source lines 82-109).  The de-accounting loop is given
`stream_memory_allocations_tracked` iterations, more than it can use. -/
def destructor (s : Http2FlowData) : Option Http2FlowData :=
  deallocation_loop s.destructor_release.stream_memory_allocations_tracked
    s.destructor_release

/-- One call on the flow data.  For `get_processing_stream` the call comes with the values
that the frame processing has put into `processing_stream_id` and `frame_type[source_id]`
before it; for `delete_processing_stream` with the value of `processing_stream_id`. -/
inductive Call where
  | get_processing_stream (source_id : SourceId) (key : Nat) (ft : FrameType)
  | delete_processing_stream (key : Nat)
  | update_stream_memory_allocations
  | update_stream_memory_deallocations
deriving DecidableEq, Repr

/-- The state in which `get_processing_stream (source_id, limit)` is called for a frame
of type `ft` whose processing stream id is `key`. -/
def at_frame (s : Http2FlowData) (source_id : SourceId) (key : Nat) (ft : FrameType) :
    Http2FlowData :=
  { s with processing_stream_id := key, frame_type := s.frame_type.set source_id ft }

/-- The effect of one call; every `get_processing_stream` is given the same limit. -/
def step (limit : Nat) (s : Http2FlowData) : Call → Option Http2FlowData
  | .get_processing_stream source_id key ft =>
    match (s.at_frame source_id key ft).get_processing_stream source_id limit with
    | none => none
    | some (s1, _) => some s1
  | .delete_processing_stream key =>
    delete_processing_stream { s with processing_stream_id := key }
  | .update_stream_memory_allocations => s.update_stream_memory_allocations
  | .update_stream_memory_deallocations => s.update_stream_memory_deallocations

/-- The effect of a sequence of calls, in order; `none` when one of them does not
complete. -/
def run (limit : Nat) (s : Http2FlowData) : List Call → Option Http2FlowData
  | [] => some s
  | c :: cs =>
    match step limit s c with
    | none => none
    | some s1 => run limit s1 cs

/-- A call of `get_processing_stream` or of `delete_processing_stream`. -/
def Call.is_stream_call : Call → Bool
  | .get_processing_stream _ _ _ => true
  | .delete_processing_stream _ => true
  | _ => false

/-- The stream table, the counters and the accounting record of `s1` are those of `s`. -/
def same_table (s s1 : Http2FlowData) : Prop :=
  s1.streams = s.streams ∧
  s1.concurrent_streams = s.concurrent_streams ∧
  s1.stream_memory_allocations_tracked = s.stream_memory_allocations_tracked ∧
  s1.allocations = s.allocations ∧
  s1.deallocations = s.deallocations ∧
  s1.stream_memory_size = s.stream_memory_size

/-- The number of streams of a table whose id is not 0. -/
def nonzero_streams (l : List Http2Stream) : Nat :=
  l.countP (fun stream => decide (stream.stream_id ≠ 0))

/-- A call of `get_processing_stream`. -/
def Call.is_get_call : Call → Bool
  | .get_processing_stream _ _ _ => true
  | _ => false

/-- The outcome "refused for too many streams" of `get_processing_stream (source_id, limit)`
in state `s`: the call completes and returns no stream, the infraction and the event
`TooManyStreams` are on the side `source_id`, `abort_flow` is set for both directions, and
the stream table, `concurrent_streams`, `max_stream_id`, `delete_stream` and
`stream_memory_allocations_tracked` are as before. -/
def refused_too_many_streams (s : Http2FlowData) (source_id : SourceId) (limit : Nat) : Prop :=
  ∃ s1, s.get_processing_stream source_id limit = some (s1, none) ∧
    Infraction.INF_TOO_MANY_STREAMS ∈ s1.infractions.get source_id ∧
    s1.events.get source_id = s.events.get source_id ++ [EventSid.EVENT_TOO_MANY_STREAMS] ∧
    s1.abort_flow.get SourceId.SRC_CLIENT = true ∧
    s1.abort_flow.get SourceId.SRC_SERVER = true ∧
    s1.streams = s.streams ∧
    s1.concurrent_streams = s.concurrent_streams ∧
    s1.max_stream_id = s.max_stream_id ∧
    s1.delete_stream = s.delete_stream ∧
    s1.stream_memory_allocations_tracked = s.stream_memory_allocations_tracked

/-- The outcome "refused for an invalid stream id" of
`get_processing_stream (source_id, limit)` in state `s`: the call completes and returns no
stream, the infraction and the event `InvalidStreamId` are on the side `source_id`, and
nothing is created: the stream table, `concurrent_streams` and `max_stream_id` are as
before, and no stream with the id `processing_stream_id` is in the table. -/
def refused_invalid_stream_id (s : Http2FlowData) (source_id : SourceId) (limit : Nat) :
    Prop :=
  ∃ s1, s.get_processing_stream source_id limit = some (s1, none) ∧
    Infraction.INF_INVALID_STREAM_ID ∈ s1.infractions.get source_id ∧
    s1.events.get source_id = s.events.get source_id ++ [EventSid.EVENT_INVALID_STREAM_ID] ∧
    s1.streams = s.streams ∧
    s1.concurrent_streams = s.concurrent_streams ∧
    s1.max_stream_id = s.max_stream_id ∧
    s1.find_stream s.processing_stream_id = none

/-- The frame types that `get_processing_stream` takes as non-housekeeping (source lines
177-179). -/
def non_housekeeping : FrameType → Bool
  | .FT_HEADERS => true
  | .FT_DATA => true
  | .FT_PUSH_PROMISE => true
  | _ => false

/-- The parity of the id `key` matches the side: odd for the client, even for the server
(source lines 182-185). -/
def on_expected_side (source_id : SourceId) (key : Nat) : Prop :=
  (key % 2 ≠ 0 ∧ source_id = SourceId.SRC_CLIENT) ∨
  (key % 2 = 0 ∧ source_id = SourceId.SRC_SERVER)

instance on_expected_side_decidable (source_id : SourceId) (key : Nat) :
    Decidable (on_expected_side source_id key) := by
  unfold on_expected_side
  exact inferInstance

/-- The call `get_processing_stream (source_id, limit)` for a frame of type `ft` with
processing stream id `key` creates a new stream in state `s`: the id is not in the table
before the call and the call returns a stream. -/
def creates (limit : Nat) (s : Http2FlowData) (source_id : SourceId) (key : Nat)
    (ft : FrameType) : Bool :=
  match (s.at_frame source_id key ft).find_stream key,
        (s.at_frame source_id key ft).get_processing_stream source_id limit with
  | none, some (_, some _) => true
  | _, _ => false

/-- The ids, in the order of the calls, for which `get_processing_stream` created a new
stream on the side `side` for a non-housekeeping frame with an id whose parity matches the
side.  The sequence ends where a call does not complete. -/
def created_ids (limit : Nat) (side : SourceId) : Http2FlowData → List Call → List Nat
  | _, [] => []
  | s, c :: cs =>
    match step limit s c with
    | none => []
    | some s1 =>
      match c with
      | .get_processing_stream source_id key ft =>
        if source_id = side ∧ non_housekeeping ft = true ∧ on_expected_side side key ∧
            creates limit s source_id key ft = true then
          key :: created_ids limit side s1 cs
        else created_ids limit side s1 cs
      | _ => created_ids limit side s1 cs

/-- The ids of the streams of a table, in the order of the table. -/
def stream_ids (l : List Http2Stream) : List Nat :=
  l.map Http2Stream.stream_id

/-- The number of blocks of `STREAM_MEMORY_TRACKING_INCREMENT` streams needed for `n`
streams: `n / STREAM_MEMORY_TRACKING_INCREMENT`, rounded up. -/
def blocks_needed (n : Nat) : Nat :=
  (n + (STREAM_MEMORY_TRACKING_INCREMENT - 1)) / STREAM_MEMORY_TRACKING_INCREMENT

/-- The largest value that `concurrent_streams` takes in the course of a sequence of calls
that starts in state `s`, the start included; the calls after one that does not complete
are left out. -/
def peak_concurrent_streams (limit : Nat) : Http2FlowData → List Call → Nat
  | s, [] => s.concurrent_streams
  | s, c :: cs =>
    match step limit s c with
    | none => s.concurrent_streams
    | some s1 => max s.concurrent_streams (peak_concurrent_streams limit s1 cs)

/-- `Http2FlowData::delete_processing_stream` (source lines 224-240) in a build with
`NDEBUG`, where the two assertions are compiled out: when no stream has the id the loop
ends and the function returns with nothing changed; when one has, `concurrent_streams -= 1`
is the decrement of a `uint32_t`, which wraps from 0 to 4294967295. -/
def delete_processing_stream_ndebug (s : Http2FlowData) : Http2FlowData :=
  match erase_stream s.streams s.processing_stream_id with
  | none => s
  | some rest =>
    let s1 := { s with streams := rest }
    let s2 := { s1 with delete_stream := false }
    { s2 with concurrent_streams := (s2.concurrent_streams + 4294967295) % 4294967296 }

/-- The effect of one call in a build with `NDEBUG`: `delete_processing_stream` always
returns.  For the other calls the outer `none` of `step` is kept. -/
def step_ndebug (limit : Nat) (s : Http2FlowData) : Call → Option Http2FlowData
  | .delete_processing_stream key =>
    some (delete_processing_stream_ndebug { s with processing_stream_id := key })
  | c => step limit s c

/-- The effect of a sequence of calls in a build with `NDEBUG`. -/
def run_ndebug (limit : Nat) (s : Http2FlowData) : List Call → Option Http2FlowData
  | [] => some s
  | c :: cs =>
    match step_ndebug limit s c with
    | none => none
    | some s1 => run_ndebug limit s1 cs

/-- The largest value that `concurrent_streams` takes in the course of a sequence of calls
in a build with `NDEBUG`, the start included. -/
def peak_concurrent_streams_ndebug (limit : Nat) : Http2FlowData → List Call → Nat
  | s, [] => s.concurrent_streams
  | s, c :: cs =>
    match step_ndebug limit s c with
    | none => s.concurrent_streams
    | some s1 => max s.concurrent_streams (peak_concurrent_streams_ndebug limit s1 cs)

/-- The relations between the counters and the table that hold between the calls when
stream 0 is never deleted: `concurrent_streams` is the number of streams with a non-zero
id, it is at most the tracked amount and at most the limit, and the tracked amount is a
positive multiple of 25. -/
def counters_in_step (limit : Nat) (s : Http2FlowData) : Prop :=
  s.concurrent_streams = nonzero_streams s.streams ∧
  s.concurrent_streams ≤ s.stream_memory_allocations_tracked ∧
  s.stream_memory_allocations_tracked % 25 = 0 ∧
  25 ≤ s.stream_memory_allocations_tracked ∧
  s.concurrent_streams ≤ limit

/-! ## Example data -/

/-- Example calls: with limit 2, two streams are created, a third is refused and the first
is deleted. -/
def example_calls_limit : List Call :=
  [Call.get_processing_stream SourceId.SRC_CLIENT 1 FrameType.FT_HEADERS,
   Call.get_processing_stream SourceId.SRC_CLIENT 3 FrameType.FT_HEADERS,
   Call.get_processing_stream SourceId.SRC_CLIENT 5 FrameType.FT_HEADERS,
   Call.delete_processing_stream 1]

/-- The state after `example_calls_limit` with limit 2. -/
def example_state_limit : Http2FlowData :=
  { fresh 64 ⟨1, 1, 1, 2⟩ with
    streams := [{ stream_id := 3 }]
    concurrent_streams := 1
    processing_stream_id := 1
    frame_type := ⟨FrameType.FT_HEADERS, FrameType.FT_SETTINGS⟩
    max_stream_id := ⟨3, 0⟩
    infractions := ⟨[Infraction.INF_TOO_MANY_STREAMS], []⟩
    events := ⟨[EventSid.EVENT_TOO_MANY_STREAMS], []⟩
    abort_flow := ⟨true, true⟩ }

/-- Example state: two streams are open and stream 5 is asked for. -/
def example_state_full : Http2FlowData :=
  { fresh 64 ⟨1, 1, 0, 2⟩ with
    streams := [{ stream_id := 3 }, { stream_id := 1 }]
    concurrent_streams := 2
    processing_stream_id := 5
    frame_type := ⟨FrameType.FT_HEADERS, FrameType.FT_SETTINGS⟩
    max_stream_id := ⟨3, 0⟩ }

/-- Example calls: streams 1 and 3 are created by the client. -/
def example_calls_two : List Call :=
  [Call.get_processing_stream SourceId.SRC_CLIENT 1 FrameType.FT_HEADERS,
   Call.get_processing_stream SourceId.SRC_CLIENT 3 FrameType.FT_HEADERS]

/-- The state after `example_calls_two`. -/
def example_state_two : Http2FlowData :=
  { fresh 64 ⟨1, 1, 0, 2⟩ with
    streams := [{ stream_id := 3 }, { stream_id := 1 }]
    concurrent_streams := 2
    processing_stream_id := 3
    frame_type := ⟨FrameType.FT_HEADERS, FrameType.FT_SETTINGS⟩
    max_stream_id := ⟨3, 0⟩ }

/-- The state after the client has sent HEADERS on stream 3 on a fresh flow. -/
def example_state_three : Http2FlowData :=
  { fresh 64 ⟨1, 1, 0, 1⟩ with
    streams := [{ stream_id := 3 }]
    concurrent_streams := 1
    processing_stream_id := 3
    frame_type := ⟨FrameType.FT_HEADERS, FrameType.FT_SETTINGS⟩
    max_stream_id := ⟨3, 0⟩ }

/-- The state after a SETTINGS frame of the client on stream 0 on a fresh flow. -/
def example_state_zero : Http2FlowData :=
  { fresh 64 ⟨1, 1, 0, 0⟩ with
    streams := [{ stream_id := 0 }]
    processing_stream_id := 0 }

/-- Example calls: streams 1 and 3 are created and stream 1 is asked for again. -/
def example_calls_again : List Call :=
  [Call.get_processing_stream SourceId.SRC_CLIENT 1 FrameType.FT_HEADERS,
   Call.get_processing_stream SourceId.SRC_CLIENT 3 FrameType.FT_HEADERS,
   Call.get_processing_stream SourceId.SRC_CLIENT 1 FrameType.FT_DATA]

/-- The state after `example_calls_again`. -/
def example_state_again : Http2FlowData :=
  { fresh 64 ⟨1, 1, 0, 2⟩ with
    streams := [{ stream_id := 3 }, { stream_id := 1 }]
    concurrent_streams := 2
    processing_stream_id := 1
    frame_type := ⟨FrameType.FT_DATA, FrameType.FT_SETTINGS⟩
    max_stream_id := ⟨3, 0⟩ }

/-- Example calls: stream 1 and stream 0 are created and stream 0 is deleted. -/
def example_calls_delete_zero : List Call :=
  [Call.get_processing_stream SourceId.SRC_CLIENT 1 FrameType.FT_HEADERS,
   Call.get_processing_stream SourceId.SRC_CLIENT 0 FrameType.FT_SETTINGS,
   Call.delete_processing_stream 0]

/-- The state after `example_calls_delete_zero`. -/
def example_state_delete_zero : Http2FlowData :=
  { fresh 64 ⟨1, 1, 0, 1⟩ with
    streams := [{ stream_id := 1 }]
    concurrent_streams := 0
    processing_stream_id := 0
    max_stream_id := ⟨1, 0⟩ }

/-- Example calls: the client creates the 26 streams 1, 3, ..., 51 and stream 1 is
deleted. -/
def example_calls_many : List Call :=
  (List.range 26).map
    (fun i => Call.get_processing_stream SourceId.SRC_CLIENT (2 * i + 1) FrameType.FT_HEADERS)
  ++ [Call.delete_processing_stream 1]

/-- The state after `example_calls_many`: 25 streams are open, two increments are tracked
and one block has been charged. -/
def example_state_many : Http2FlowData :=
  { fresh 64 ⟨1, 1, 0, 26⟩ with
    streams := ((List.range 25).map (fun i => ({ stream_id := 2 * i + 3 } : Http2Stream))).reverse
    concurrent_streams := 25
    processing_stream_id := 1
    stream_memory_allocations_tracked := 50
    frame_type := ⟨FrameType.FT_HEADERS, FrameType.FT_SETTINGS⟩
    max_stream_id := ⟨51, 0⟩
    allocations := [1600] }

/-- An instance of `get_promised_stream_id` that rejects the promised stream id: it reports
`BadPushPromise` in both accumulators and returns `NO_STREAM_ID`. -/
def example_rejecting_promise (events : List EventSid) (infractions : List Infraction)
    (_data_buffer : List Nat) (_data_len : Nat) : PromisedStreamId :=
  { events := events ++ [EventSid.EVENT_BAD_PUSH_PROMISE]
    infractions := Infraction.INF_BAD_PUSH_PROMISE :: infractions
    id := NO_STREAM_ID }

/-- Example state: stream 1 is open, the server has sent a PUSH_PROMISE frame on stream 1
whose promised stream id is 0, and no processing stream is set. -/
def example_state_push_promise : Http2FlowData :=
  { fresh 64 ⟨1, 1, 0, 1⟩ with
    streams := [{ stream_id := 1 }]
    concurrent_streams := 1
    frame_type := ⟨FrameType.FT_HEADERS, FrameType.FT_PUSH_PROMISE⟩
    current_stream := ⟨1, 1⟩
    frame_data := ⟨[], [0, 0, 0, 0]⟩
    frame_data_size := ⟨0, 4⟩
    max_stream_id := ⟨1, 0⟩ }

/-- The state after the client has sent HEADERS on stream 2 on a fresh flow: the stream is
created, `max_stream_id` of the client is still 0. -/
def example_state_even : Http2FlowData :=
  { fresh 64 ⟨1, 1, 0, 1⟩ with
    streams := [{ stream_id := 2 }]
    concurrent_streams := 1
    processing_stream_id := 2
    frame_type := ⟨FrameType.FT_HEADERS, FrameType.FT_SETTINGS⟩ }

/-- The state after `example_state_two`, with limit 2, has refused a SETTINGS frame of the
client on stream 0. -/
def example_state_refused_zero : Http2FlowData :=
  { example_state_two with
    processing_stream_id := 0
    frame_type := ⟨FrameType.FT_SETTINGS, FrameType.FT_SETTINGS⟩
    infractions := ⟨[Infraction.INF_TOO_MANY_STREAMS], []⟩
    events := ⟨[EventSid.EVENT_TOO_MANY_STREAMS], []⟩
    abort_flow := ⟨true, true⟩
    pegs := ⟨1, 1, 1, 2⟩ }

/-- The state after the client has sent WINDOW_UPDATE on stream 7 on a fresh flow: the
stream is created and marked for deletion. -/
def example_state_housekeeping : Http2FlowData :=
  { fresh 64 ⟨1, 1, 0, 1⟩ with
    streams := [{ stream_id := 7 }]
    concurrent_streams := 1
    processing_stream_id := 7
    frame_type := ⟨FrameType.FT_WINDOW_UPDATE, FrameType.FT_SETTINGS⟩
    delete_stream := true }

/-- A fresh flow on which the client has sent a SETTINGS frame on stream 0, before
`get_processing_stream`. -/
def example_frame_settings : Http2FlowData :=
  (fresh 64 ⟨1, 1, 0, 0⟩).at_frame SourceId.SRC_CLIENT 0 FrameType.FT_SETTINGS

/-- A fresh flow on which the client has sent a HEADERS frame on stream 3, before
`get_processing_stream`. -/
def example_frame_headers : Http2FlowData :=
  (fresh 64 ⟨1, 1, 0, 0⟩).at_frame SourceId.SRC_CLIENT 3 FrameType.FT_HEADERS

/-- A fresh flow on which the client has sent a WINDOW_UPDATE frame on stream 7, before
`get_processing_stream`. -/
def example_frame_window_update : Http2FlowData :=
  (fresh 64 ⟨1, 1, 0, 0⟩).at_frame SourceId.SRC_CLIENT 7 FrameType.FT_WINDOW_UPDATE

/-- The state `example_state_two` in which the client has sent a SETTINGS frame on
stream 0, before `get_processing_stream`. -/
def example_frame_settings_full : Http2FlowData :=
  example_state_two.at_frame SourceId.SRC_CLIENT 0 FrameType.FT_SETTINGS

/-- Example calls: the client creates the 25 streams 1, 3, ..., 49. -/
def example_calls_block : List Call :=
  (List.range 25).map
    (fun i => Call.get_processing_stream SourceId.SRC_CLIENT (2 * i + 1) FrameType.FT_HEADERS)

/-- The state after `example_calls_block`: 25 streams are open and one increment is
tracked. -/
def example_state_block : Http2FlowData :=
  { fresh 64 ⟨1, 1, 0, 25⟩ with
    streams := ((List.range 25).map (fun i => ({ stream_id := 2 * i + 1 } : Http2Stream))).reverse
    concurrent_streams := 25
    processing_stream_id := 49
    frame_type := ⟨FrameType.FT_HEADERS, FrameType.FT_SETTINGS⟩
    max_stream_id := ⟨49, 0⟩ }

/-- Example calls: a SETTINGS frame on stream 0 creates stream 0, and stream 0 is
deleted. -/
def example_calls_only_zero : List Call :=
  [Call.get_processing_stream SourceId.SRC_CLIENT 0 FrameType.FT_SETTINGS,
   Call.delete_processing_stream 0]

/-- The state after `example_calls_only_zero` in a build with `NDEBUG`: the table is empty
and `concurrent_streams` has wrapped. -/
def example_state_wrapped : Http2FlowData :=
  { fresh 64 ⟨1, 1, 0, 0⟩ with
    concurrent_streams := 4294967295
    processing_stream_id := 0 }

/-! ## Effects of the single operations -/

/-- What `allocate_new_stream` changes, when it completes. -/
theorem allocate_new_stream_spec (s s1 : Http2FlowData) (key : Nat) (r : Option Http2Stream)
    (h : allocate_new_stream s key = some (s1, r)) :
    r = some { stream_id := key } ∧
    s1.streams = { stream_id := key } :: s.streams ∧
    s1.concurrent_streams = (if key > 0 then s.concurrent_streams + 1 else s.concurrent_streams) ∧
    s1.stream_memory_allocations_tracked =
      (if key > 0 ∧ s.concurrent_streams + 1 > s.stream_memory_allocations_tracked then
        s.stream_memory_allocations_tracked + STREAM_MEMORY_TRACKING_INCREMENT
       else s.stream_memory_allocations_tracked) ∧
    s1.allocations =
      (if key > 0 ∧ s.concurrent_streams + 1 > s.stream_memory_allocations_tracked then
        s.stream_increment_memory_size :: s.allocations
       else s.allocations) ∧
    s1.deallocations = s.deallocations ∧
    s1.max_stream_id = s.max_stream_id ∧
    s1.delete_stream = s.delete_stream ∧
    s1.infractions = s.infractions ∧
    s1.events = s.events ∧
    s1.abort_flow = s.abort_flow ∧
    s1.stream_memory_size = s.stream_memory_size := by
  unfold allocate_new_stream at h
  simp only [update_stream_memory_allocations, update_allocations,
    stream_increment_memory_size] at h
  split_ifs at h <;> simp at h <;> obtain ⟨rfl, rfl⟩ := h <;>
    simp_all [stream_increment_memory_size] <;>
    rw [if_neg (by omega), if_neg (by omega)] <;> exact ⟨rfl, rfl⟩

/-- The three ways in which `get_processing_stream` completes: the stream is found and
nothing changes; the stream is refused and table, counters, `max_stream_id` are kept;
or `allocate_new_stream` runs, after `max_stream_id[source_id]` has been raised to a
larger `key` or kept. -/
theorem get_processing_stream_cases (s s1 : Http2FlowData) (source_id : SourceId)
    (limit : Nat) (r : Option Http2Stream)
    (h : s.get_processing_stream source_id limit = some (s1, r)) :
    (s.find_stream s.processing_stream_id = r ∧ r ≠ none ∧ s1 = s) ∨
    (s.find_stream s.processing_stream_id = none ∧ r = none ∧ same_table s s1 ∧
      s1.max_stream_id = s.max_stream_id) ∨
    (s.find_stream s.processing_stream_id = none ∧ s.concurrent_streams < limit ∧
      ∃ s0, allocate_new_stream s0 s.processing_stream_id = some (s1, r) ∧ same_table s s0 ∧
        (s0.max_stream_id = s.max_stream_id ∨
          (s.max_stream_id.get source_id < s.processing_stream_id ∧
           s0.max_stream_id = s.max_stream_id.set source_id s.processing_stream_id))) := by
  unfold get_processing_stream at h
  simp only at h
  split at h
  · rename_i st hf
    simp only [Option.some.injEq, Prod.mk.injEq] at h
    obtain ⟨rfl, rfl⟩ := h
    exact Or.inl ⟨hf, by simp, rfl⟩
  · rename_i hf
    split_ifs at h with h1 h2 h3 h4 h5
    · simp only [Option.some.injEq, Prod.mk.injEq] at h
      obtain ⟨rfl, rfl⟩ := h
      exact Or.inr (Or.inl ⟨hf, rfl, by simp [same_table, add_infraction, create_event], rfl⟩)
    · simp only [Option.some.injEq, Prod.mk.injEq] at h
      obtain ⟨rfl, rfl⟩ := h
      exact Or.inr (Or.inl ⟨hf, rfl, by simp [same_table, add_infraction, create_event], rfl⟩)
    · exact Or.inr (Or.inr ⟨hf, by omega, _, h, by simp [same_table],
        Or.inr ⟨by omega, rfl⟩⟩)
    · exact Or.inr (Or.inr ⟨hf, by omega, _, h, by simp [same_table], Or.inl rfl⟩)
    · exact Or.inr (Or.inr ⟨hf, by omega, _, h, by simp [same_table], Or.inl rfl⟩)
    · exact Or.inr (Or.inr ⟨hf, by omega, _, h, by simp [same_table], Or.inl rfl⟩)

/-- What `delete_processing_stream` changes, when it completes. -/
theorem delete_processing_stream_spec (s s1 : Http2FlowData)
    (h : s.delete_processing_stream = some s1) :
    erase_stream s.streams s.processing_stream_id = some s1.streams ∧
    0 < s.concurrent_streams ∧
    s1.concurrent_streams = s.concurrent_streams - 1 ∧
    s1.delete_stream = false ∧
    s1.stream_memory_allocations_tracked = s.stream_memory_allocations_tracked ∧
    s1.allocations = s.allocations ∧
    s1.deallocations = s.deallocations ∧
    s1.max_stream_id = s.max_stream_id ∧
    s1.processing_stream_id = s.processing_stream_id ∧
    s1.stream_memory_size = s.stream_memory_size := by
  unfold delete_processing_stream at h
  split at h
  · exact absurd h (by simp)
  · rename_i rest he
    simp only at h
    split_ifs at h with h1
    simp only [Option.some.injEq] at h
    subst h
    exact ⟨he, by omega, rfl, rfl, rfl, rfl, rfl, rfl, rfl, rfl⟩

/-! ## Sequences of calls -/

/-- A property that every completed call of a kind `Q` preserves holds after every
completed sequence of calls of that kind. -/
theorem run_preserves (limit : Nat) (Q : Call → Prop) (P : Http2FlowData → Prop)
    (hstep : ∀ s c s1, Q c → P s → step limit s c = some s1 → P s1) :
    ∀ (calls : List Call) (s s1 : Http2FlowData), (∀ c ∈ calls, Q c) → P s →
      run limit s calls = some s1 → P s1 := by
  intro calls
  induction calls with
  | nil =>
    intro s s1 _ hP h
    simp only [run, Option.some.injEq] at h
    exact h ▸ hP
  | cons c cs ih =>
    intro s s1 hQ hP h
    simp only [run] at h
    split at h
    · exact absurd h (by simp)
    · rename_i s2 hs
      exact ih s2 s1 (fun c1 hc1 => hQ c1 (List.mem_cons_of_mem _ hc1))
        (hstep s c s2 (hQ c (List.mem_cons_self _ _)) hP hs) h

/-- The result of `get_processing_stream` inside a step. -/
theorem step_get_eq (limit : Nat) (s s1 : Http2FlowData) (source_id : SourceId) (key : Nat)
    (ft : FrameType) (h : step limit s (Call.get_processing_stream source_id key ft) = some s1) :
    ∃ r, (s.at_frame source_id key ft).get_processing_stream source_id limit = some (s1, r) := by
  simp only [step] at h
  split at h
  · exact absurd h (by simp)
  · rename_i s2 r hg
    simp only [Option.some.injEq] at h
    exact ⟨r, h ▸ hg⟩

/-- What a completed `delete_processing_stream` step changes. -/
theorem step_delete_spec (limit : Nat) (s s1 : Http2FlowData) (key : Nat)
    (h : step limit s (Call.delete_processing_stream key) = some s1) :
    erase_stream s.streams key = some s1.streams ∧
    0 < s.concurrent_streams ∧
    s1.concurrent_streams = s.concurrent_streams - 1 ∧
    s1.delete_stream = false ∧
    s1.stream_memory_allocations_tracked = s.stream_memory_allocations_tracked ∧
    s1.allocations = s.allocations ∧
    s1.deallocations = s.deallocations ∧
    s1.max_stream_id = s.max_stream_id ∧
    s1.processing_stream_id = key ∧
    s1.stream_memory_size = s.stream_memory_size :=
  delete_processing_stream_spec { s with processing_stream_id := key } s1 h

/-- What a completed `update_stream_memory_allocations` changes. -/
theorem update_stream_memory_allocations_spec (s s1 : Http2FlowData)
    (h : s.update_stream_memory_allocations = some s1) :
    s.stream_memory_allocations_tracked < s.concurrent_streams ∧
    s1.stream_memory_allocations_tracked =
      s.stream_memory_allocations_tracked + STREAM_MEMORY_TRACKING_INCREMENT ∧
    s1.allocations = s.stream_increment_memory_size :: s.allocations ∧
    s1.deallocations = s.deallocations ∧
    s1.streams = s.streams ∧
    s1.concurrent_streams = s.concurrent_streams ∧
    s1.max_stream_id = s.max_stream_id ∧
    s1.stream_memory_size = s.stream_memory_size := by
  simp only [update_stream_memory_allocations, update_allocations] at h
  split_ifs at h with h1 h2 h3
  simp only [Option.some.injEq] at h
  subst h
  exact ⟨by omega, rfl, rfl, rfl, rfl, rfl, rfl, rfl⟩

/-- What a completed `update_stream_memory_deallocations` changes. -/
theorem update_stream_memory_deallocations_spec (s s1 : Http2FlowData)
    (h : s.update_stream_memory_deallocations = some s1) :
    STREAM_MEMORY_TRACKING_INCREMENT ≤ s.stream_memory_allocations_tracked ∧
    s1.stream_memory_allocations_tracked =
      s.stream_memory_allocations_tracked - STREAM_MEMORY_TRACKING_INCREMENT ∧
    s1.allocations = s.allocations ∧
    s1.deallocations = s.stream_increment_memory_size :: s.deallocations ∧
    s1.streams = s.streams ∧
    s1.concurrent_streams = s.concurrent_streams ∧
    s1.max_stream_id = s.max_stream_id ∧
    s1.stream_memory_size = s.stream_memory_size := by
  simp only [update_stream_memory_deallocations, update_deallocations] at h
  split_ifs at h with h1
  simp only [Option.some.injEq] at h
  subst h
  exact ⟨by omega, rfl, rfl, rfl, rfl, rfl, rfl, rfl⟩

/-- A completed call keeps `concurrent_streams` within the limit. -/
theorem step_concurrent_streams_le (limit : Nat) (s : Http2FlowData) (c : Call)
    (s1 : Http2FlowData) (hle : s.concurrent_streams ≤ limit) (h : step limit s c = some s1) :
    s1.concurrent_streams ≤ limit := by
  cases c with
  | get_processing_stream source_id key ft =>
    obtain ⟨r, hg⟩ := step_get_eq limit s s1 source_id key ft h
    rcases get_processing_stream_cases _ _ _ _ _ hg with ⟨_, _, rfl⟩ | ⟨_, _, hs, _⟩ |
      ⟨_, hlt, s0, ha, hs, _⟩
    · exact hle
    · rw [hs.2.1]; exact hle
    · have hspec := allocate_new_stream_spec _ _ _ _ ha
      rw [hspec.2.2.1, hs.2.1]
      have hlt1 : s.concurrent_streams < limit := hlt
      split_ifs <;> omega
  | delete_processing_stream key =>
    have hspec := step_delete_spec _ _ _ _ h
    rw [hspec.2.2.1]
    omega
  | update_stream_memory_allocations =>
    rw [(update_stream_memory_allocations_spec _ _ h).2.2.2.2.2.1]
    exact hle
  | update_stream_memory_deallocations =>
    rw [(update_stream_memory_deallocations_spec _ _ h).2.2.2.2.2.1]
    exact hle

/-- Erasing a stream takes one from the number of streams with a non-zero id, unless the
erased id is 0. -/
theorem erase_stream_nonzero (l l1 : List Http2Stream) (key : Nat)
    (h : erase_stream l key = some l1) :
    nonzero_streams l = nonzero_streams l1 + (if key = 0 then 0 else 1) := by
  induction l generalizing l1 with
  | nil => simp [erase_stream] at h
  | cons st rest ih =>
    simp only [erase_stream] at h
    split_ifs at h with hk
    · simp only [Option.some.injEq] at h
      subst h
      subst hk
      by_cases h0 : st.stream_id = 0 <;> simp [nonzero_streams, List.countP_cons, h0]
    · split at h
      · exact absurd h (by simp)
      · rename_i rest1 he
        simp only [Option.some.injEq] at h
        subst h
        have := ih rest1 he
        simp only [nonzero_streams, List.countP_cons] at this ⊢
        omega

/-- A completed call other than the deletion of stream 0 keeps `concurrent_streams` equal
to the number of streams with a non-zero id. -/
theorem step_count (limit : Nat) (s : Http2FlowData) (c : Call) (s1 : Http2FlowData)
    (hc : c ≠ Call.delete_processing_stream 0)
    (hinv : s.concurrent_streams = nonzero_streams s.streams)
    (h : step limit s c = some s1) :
    s1.concurrent_streams = nonzero_streams s1.streams := by
  cases c with
  | get_processing_stream source_id key ft =>
    obtain ⟨r, hg⟩ := step_get_eq limit s s1 source_id key ft h
    rcases get_processing_stream_cases _ _ _ _ _ hg with ⟨_, _, rfl⟩ | ⟨_, _, hs, _⟩ |
      ⟨_, _, s0, ha, hs, _⟩
    · exact hinv
    · rw [hs.2.1, hs.1]; exact hinv
    · have hspec := allocate_new_stream_spec _ _ _ _ ha
      rw [hspec.2.2.1, hspec.2.1, hs.2.1, hs.1]
      have hinv1 : s.concurrent_streams = nonzero_streams s.streams := hinv
      simp only [at_frame, nonzero_streams, List.countP_cons] at hinv1 ⊢
      by_cases hk : key = 0
      · simp [hk, hinv1]
      · have : 0 < key := Nat.pos_of_ne_zero hk
        simp [hk, this, hinv1]
  | delete_processing_stream key =>
    have hspec := step_delete_spec _ _ _ _ h
    have he := erase_stream_nonzero _ _ _ hspec.1
    have hk : key ≠ 0 := fun h0 => hc (by rw [h0])
    rw [hspec.2.2.1]
    simp only [hk, if_false] at he
    omega
  | update_stream_memory_allocations =>
    have hspec := update_stream_memory_allocations_spec _ _ h
    rw [hspec.2.2.2.2.2.1, hspec.2.2.2.2.1]
    exact hinv
  | update_stream_memory_deallocations =>
    have hspec := update_stream_memory_deallocations_spec _ _ h
    rw [hspec.2.2.2.2.2.1, hspec.2.2.2.2.1]
    exact hinv

/-- After a completed sequence of calls without a deletion of stream 0, from a state with no
streams and `concurrent_streams = 0`, `concurrent_streams` is the number of streams with a
non-zero id. -/
theorem run_count (limit : Nat) (s0 s : Http2FlowData) (calls : List Call)
    (hstreams : s0.streams = []) (hzero : s0.concurrent_streams = 0)
    (hcalls : ∀ c ∈ calls, c ≠ Call.delete_processing_stream 0)
    (h : run limit s0 calls = some s) :
    s.concurrent_streams = nonzero_streams s.streams :=
  run_preserves limit (fun c => c ≠ Call.delete_processing_stream 0)
    (fun s => s.concurrent_streams = nonzero_streams s.streams)
    (fun s c s1 hc hP hs => step_count limit s c s1 hc hP hs)
    calls s0 s hcalls (by simp [hzero, hstreams, nonzero_streams]) h

/-- Reading a per-direction array after a write. -/
theorem Sides_get_set {α : Type} (a : Sides α) (i j : SourceId) (v : α) :
    (a.set i v).get j = if j = i then v else a.get j := by
  cases i <;> cases j <;> simp [Sides.get, Sides.set]

/-- A completed call never lowers `max_stream_id` of a side. -/
theorem step_max_stream_id_mono (limit : Nat) (s : Http2FlowData) (c : Call)
    (s1 : Http2FlowData) (side : SourceId) (h : step limit s c = some s1) :
    s.max_stream_id.get side ≤ s1.max_stream_id.get side := by
  cases c with
  | get_processing_stream source_id key ft =>
    obtain ⟨r, hg⟩ := step_get_eq limit s s1 source_id key ft h
    rcases get_processing_stream_cases _ _ _ _ _ hg with ⟨_, _, rfl⟩ | ⟨_, _, _, hm⟩ |
      ⟨_, _, s0, ha, _, hm⟩
    · exact le_refl _
    · rw [hm]; exact le_refl _
    · have hspec := allocate_new_stream_spec _ _ _ _ ha
      rw [hspec.2.2.2.2.2.2.1]
      rcases hm with hm | ⟨hlt, hm⟩
      · rw [hm]; exact le_refl _
      · rw [hm, Sides_get_set]
        have hlt1 : s.max_stream_id.get source_id < key := hlt
        show s.max_stream_id.get side ≤ if side = source_id then key else s.max_stream_id.get side
        split_ifs with hs
        · subst hs; omega
        · exact le_refl _
  | delete_processing_stream key =>
    rw [(step_delete_spec _ _ _ _ h).2.2.2.2.2.2.2.1]
  | update_stream_memory_allocations =>
    rw [(update_stream_memory_allocations_spec _ _ h).2.2.2.2.2.2.1]
  | update_stream_memory_deallocations =>
    rw [(update_stream_memory_deallocations_spec _ _ h).2.2.2.2.2.2.1]

/-- A call that creates a stream with an id > 0 of matching parity for a non-housekeeping
frame has an id above `max_stream_id` of its side, and makes it the new `max_stream_id`. -/
theorem creates_raises_max_stream_id (limit : Nat) (s s1 : Http2FlowData)
    (source_id : SourceId) (key : Nat) (ft : FrameType)
    (h : step limit s (Call.get_processing_stream source_id key ft) = some s1)
    (hc : creates limit s source_id key ft = true)
    (hpos : 0 < key) (hft : non_housekeeping ft = true)
    (hside : on_expected_side source_id key) :
    s.max_stream_id.get source_id < key ∧ s1.max_stream_id.get source_id = key := by
  obtain ⟨r, hg⟩ := step_get_eq limit s s1 source_id key ft h
  have hnot : (s.at_frame source_id key ft).find_stream key = none := by
    unfold creates at hc
    split at hc
    · assumption
    · exact absurd hc (by simp)
  have hr : r ≠ none := by
    intro hr
    unfold creates at hc
    rw [hg, hr] at hc
    split at hc
    · rename_i heq
      simp at heq
    · exact absurd hc (by simp)
  have hnh : (decide (ft = FrameType.FT_HEADERS) || decide (ft = FrameType.FT_DATA) ||
      decide (ft = FrameType.FT_PUSH_PROMISE)) = true := by
    revert hft
    cases ft <;> simp [non_housekeeping]
  have hexp : ((decide (key % 2 ≠ 0) && decide (source_id = SourceId.SRC_CLIENT)) ||
      (decide (key % 2 = 0) && decide (source_id = SourceId.SRC_SERVER))) = true := by
    rcases hside with ⟨h1, h2⟩ | ⟨h1, h2⟩ <;> simp [h1, h2]
  have hftget : (s.at_frame source_id key ft).frame_type.get source_id = ft := by
    simp [at_frame, Sides_get_set]
  unfold get_processing_stream at hg
  simp only [hftget] at hg
  have hkey : (s.at_frame source_id key ft).processing_stream_id = key := rfl
  simp only [hkey, hnot] at hg
  split_ifs at hg with h1 h2 h3
  · simp only [Option.some.injEq, Prod.mk.injEq] at hg
    exact absurd hg.2.symm hr
  · simp only [Option.some.injEq, Prod.mk.injEq] at hg
    exact absurd hg.2.symm hr
  · have hspec := allocate_new_stream_spec _ _ _ _ hg
    refine ⟨by
      have : ¬ key ≤ s.max_stream_id.get source_id := h3
      omega, ?_⟩
    rw [hspec.2.2.2.2.2.2.1]
    simp [at_frame, Sides_get_set]
  · omega

/-- The created ids > 0 of a side are strictly increasing and above the `max_stream_id`
of the side in the state from which the calls start. -/
theorem created_ids_above (limit : Nat) (side : SourceId) (calls : List Call) :
    ∀ s : Http2FlowData,
      List.Pairwise (fun a b => a < b)
        ((created_ids limit side s calls).filter (fun k => decide (0 < k))) ∧
      ∀ x ∈ (created_ids limit side s calls).filter (fun k => decide (0 < k)),
        s.max_stream_id.get side < x := by
  induction calls with
  | nil => intro s; simp [created_ids]
  | cons c cs ih =>
    intro s
    unfold created_ids
    split
    · simp
    · rename_i s1 hs
      obtain ⟨ih1, ih2⟩ := ih s1
      have hmono := step_max_stream_id_mono limit s c s1 side hs
      have hrest : ∀ x ∈ (created_ids limit side s1 cs).filter (fun k => decide (0 < k)),
          s.max_stream_id.get side < x := fun x hx => lt_of_le_of_lt hmono (ih2 x hx)
      split
      · rename_i source_id key ft
        split_ifs with hcond
        · obtain ⟨hsrc, hft, hside, hcr⟩ := hcond
          subst hsrc
          by_cases hpos : 0 < key
          · obtain ⟨hlt, heq⟩ :=
              creates_raises_max_stream_id limit s s1 source_id key ft hs hcr hpos hft hside
            rw [List.filter_cons_of_pos (by simpa using hpos)]
            constructor
            · rw [List.pairwise_cons]
              refine ⟨fun x hx => ?_, ih1⟩
              have := ih2 x hx
              omega
            · intro x hx
              rcases List.mem_cons.mp hx with rfl | hx
              · exact hlt
              · exact hrest x hx
          · rw [List.filter_cons_of_neg (by simpa using hpos)]
            exact ⟨ih1, hrest⟩
        · exact ⟨ih1, hrest⟩
      · exact ⟨ih1, hrest⟩

/-- The search of `find_stream` fails exactly when the key is not among the ids. -/
theorem find_in_eq_none (l : List Http2Stream) (key : Nat) :
    find_in l key = none ↔ key ∉ stream_ids l := by
  induction l with
  | nil => simp [find_in, stream_ids]
  | cons st rest ih =>
    simp only [find_in, stream_ids, List.map_cons, List.mem_cons, not_or]
    split_ifs with hk
    · simp [hk]
    · rw [ih]
      simp only [stream_ids]
      constructor
      · intro h; exact ⟨fun h1 => hk h1.symm, h⟩
      · intro h; exact h.2

/-- The loop of `delete_processing_stream` erases the first stream with the key and keeps
the others in their order. -/
theorem erase_stream_split (l l1 : List Http2Stream) (key : Nat)
    (h : erase_stream l key = some l1) :
    ∃ a st b, l = a ++ st :: b ∧ st.stream_id = key ∧ l1 = a ++ b ∧
      key ∉ stream_ids a := by
  induction l generalizing l1 with
  | nil => simp [erase_stream] at h
  | cons st rest ih =>
    simp only [erase_stream] at h
    split_ifs at h with hk
    · simp only [Option.some.injEq] at h
      exact ⟨[], st, rest, rfl, hk, by simp [h], by simp [stream_ids]⟩
    · split at h
      · exact absurd h (by simp)
      · rename_i rest1 he
        simp only [Option.some.injEq] at h
        obtain ⟨a, st1, b, hl, hid, hl1, hna⟩ := ih rest1 he
        refine ⟨st :: a, st1, b, by simp [hl], hid, by simp [← h, hl1], ?_⟩
        simp only [stream_ids, List.map_cons, List.mem_cons, not_or]
        exact ⟨fun h1 => hk h1.symm, hna⟩

/-- The loop of `delete_processing_stream` finds a stream whenever the key is among the
ids. -/
theorem erase_stream_of_mem (l : List Http2Stream) (key : Nat) (h : key ∈ stream_ids l) :
    ∃ l1, erase_stream l key = some l1 := by
  induction l with
  | nil => simp [stream_ids] at h
  | cons st rest ih =>
    simp only [erase_stream]
    split_ifs with hk
    · exact ⟨rest, rfl⟩
    · simp only [stream_ids, List.map_cons, List.mem_cons] at h
      rcases h with h | h
      · exact absurd h.symm hk
      · obtain ⟨l1, hl1⟩ := ih h
        rw [hl1]
        exact ⟨st :: l1, rfl⟩

/-- A completed call keeps the ids of the table free of duplicates. -/
theorem step_nodup (limit : Nat) (s : Http2FlowData) (c : Call) (s1 : Http2FlowData)
    (hinv : (stream_ids s.streams).Nodup) (h : step limit s c = some s1) :
    (stream_ids s1.streams).Nodup := by
  cases c with
  | get_processing_stream source_id key ft =>
    obtain ⟨r, hg⟩ := step_get_eq limit s s1 source_id key ft h
    rcases get_processing_stream_cases _ _ _ _ _ hg with ⟨_, _, rfl⟩ | ⟨_, _, hs, _⟩ |
      ⟨hnot, _, s0, ha, hs, _⟩
    · exact hinv
    · rw [hs.1]; exact hinv
    · have hspec := allocate_new_stream_spec _ _ _ _ ha
      rw [hspec.2.1, hs.1]
      have hnot1 : find_in s.streams key = none := hnot
      rw [find_in_eq_none] at hnot1
      show (stream_ids ({ stream_id := key } :: s.streams)).Nodup
      simp only [stream_ids, List.map_cons, List.nodup_cons]
      exact ⟨hnot1, hinv⟩
  | delete_processing_stream key =>
    obtain ⟨a, st, b, hl, hid, hl1, _⟩ := erase_stream_split _ _ _ (step_delete_spec _ _ _ _ h).1
    rw [hl1]
    rw [hl] at hinv
    simp only [stream_ids, List.map_append, List.map_cons] at hinv ⊢
    exact (List.nodup_cons.mp (List.nodup_middle.mp hinv)).2
  | update_stream_memory_allocations =>
    rw [(update_stream_memory_allocations_spec _ _ h).2.2.2.2.1]
    exact hinv
  | update_stream_memory_deallocations =>
    rw [(update_stream_memory_deallocations_spec _ _ h).2.2.2.2.1]
    exact hinv

/-- After a completed sequence of calls on a flow that starts with no streams, the ids of
the table are free of duplicates. -/
theorem run_nodup (limit : Nat) (s0 s : Http2FlowData) (calls : List Call)
    (hstreams : s0.streams = []) (h : run limit s0 calls = some s) :
    (stream_ids s.streams).Nodup :=
  run_preserves limit (fun _ => True) (fun s => (stream_ids s.streams).Nodup)
    (fun s c s1 _ hP hs => step_nodup limit s c s1 hP hs)
    calls s0 s (fun _ _ => trivial) (by simp [hstreams, stream_ids]) h

/-- A completed call keeps `stream_memory_allocations_tracked` a multiple of the
increment. -/
theorem step_tracked_multiple (limit : Nat) (s : Http2FlowData) (c : Call)
    (s1 : Http2FlowData)
    (hinv : s.stream_memory_allocations_tracked % STREAM_MEMORY_TRACKING_INCREMENT = 0)
    (h : step limit s c = some s1) :
    s1.stream_memory_allocations_tracked % STREAM_MEMORY_TRACKING_INCREMENT = 0 := by
  unfold STREAM_MEMORY_TRACKING_INCREMENT at hinv ⊢
  cases c with
  | get_processing_stream source_id key ft =>
    obtain ⟨r, hg⟩ := step_get_eq limit s s1 source_id key ft h
    rcases get_processing_stream_cases _ _ _ _ _ hg with ⟨_, _, rfl⟩ | ⟨_, _, hs, _⟩ |
      ⟨_, _, s0, ha, hs, _⟩
    · exact hinv
    · rw [hs.2.2.1]; exact hinv
    · have htr := (allocate_new_stream_spec _ _ _ _ ha).2.2.2.1
      have h0 : s0.stream_memory_allocations_tracked = s.stream_memory_allocations_tracked :=
        hs.2.2.1
      rw [h0] at htr
      unfold STREAM_MEMORY_TRACKING_INCREMENT at htr
      split_ifs at htr <;> omega
  | delete_processing_stream key =>
    rw [(step_delete_spec _ _ _ _ h).2.2.2.2.1]
    exact hinv
  | update_stream_memory_allocations =>
    have hspec := update_stream_memory_allocations_spec _ _ h
    rw [hspec.2.1]
    unfold STREAM_MEMORY_TRACKING_INCREMENT
    omega
  | update_stream_memory_deallocations =>
    have hspec := update_stream_memory_deallocations_spec _ _ h
    rw [hspec.2.1]
    have := hspec.1
    unfold STREAM_MEMORY_TRACKING_INCREMENT at this ⊢
    omega

/-- Every iteration of the de-accounting loop of the destructor keeps
`stream_memory_allocations_tracked` a multiple of the increment. -/
theorem deallocation_loop_states_multiple (fuel : Nat) :
    ∀ s : Http2FlowData,
      s.stream_memory_allocations_tracked % STREAM_MEMORY_TRACKING_INCREMENT = 0 →
      ∀ s1 ∈ deallocation_loop_states fuel s,
        s1.stream_memory_allocations_tracked % STREAM_MEMORY_TRACKING_INCREMENT = 0 := by
  induction fuel with
  | zero => intro s _ s1 hs1; simp [deallocation_loop_states] at hs1
  | succ n ih =>
    intro s hinv s1 hs1
    simp only [deallocation_loop_states] at hs1
    split_ifs at hs1 with hgt
    · split at hs1
      · simp at hs1
      · rename_i s2 hd
        have hspec := update_stream_memory_deallocations_spec _ _ hd
        have h2 : s2.stream_memory_allocations_tracked % STREAM_MEMORY_TRACKING_INCREMENT = 0 := by
          rw [hspec.2.1]
          have := hspec.1
          unfold STREAM_MEMORY_TRACKING_INCREMENT at this hinv ⊢
          omega
        rcases List.mem_cons.mp hs1 with rfl | hmem
        · exact h2
        · exact ih s2 h2 s1 hmem
    · simp at hs1

/-- A completed `get_processing_stream` or `delete_processing_stream`, in a state with
`concurrent_streams <= stream_memory_allocations_tracked`, either keeps the tracked amount,
or has raised `concurrent_streams` to one above it and adds one increment; the record of
the accounting grows by one charge in the second case only. -/
theorem step_tracked_cases (limit : Nat) (s : Http2FlowData) (c : Call) (s1 : Http2FlowData)
    (hc : c.is_stream_call = true)
    (hle : s.concurrent_streams ≤ s.stream_memory_allocations_tracked)
    (h : step limit s c = some s1) :
    s1.deallocations = s.deallocations ∧ s1.stream_memory_size = s.stream_memory_size ∧
    ((s1.stream_memory_allocations_tracked = s.stream_memory_allocations_tracked ∧
        s1.concurrent_streams ≤ s.stream_memory_allocations_tracked ∧
        s1.allocations = s.allocations) ∨
     (s1.stream_memory_allocations_tracked =
          s.stream_memory_allocations_tracked + STREAM_MEMORY_TRACKING_INCREMENT ∧
        s1.concurrent_streams = s.stream_memory_allocations_tracked + 1 ∧
        s1.allocations = s.stream_increment_memory_size :: s.allocations)) := by
  cases c with
  | get_processing_stream source_id key ft =>
    obtain ⟨r, hg⟩ := step_get_eq limit s s1 source_id key ft h
    rcases get_processing_stream_cases _ _ _ _ _ hg with ⟨_, _, rfl⟩ | ⟨_, _, hs, _⟩ |
      ⟨_, _, s0, ha, hs, _⟩
    · exact ⟨rfl, rfl, Or.inl ⟨rfl, hle, rfl⟩⟩
    · obtain ⟨_, h2, h3, h4, h5, h6⟩ := hs
      refine ⟨h5, h6, Or.inl ⟨h3, ?_, h4⟩⟩
      rw [h2]; exact hle
    · obtain ⟨_, _, hcs, htr, hal, hde, _, _, _, _, _, hsz⟩ := allocate_new_stream_spec _ _ _ _ ha
      obtain ⟨_, h2, h3, h4, h5, h6⟩ := hs
      have h2a : s0.concurrent_streams = s.concurrent_streams := h2
      have h3a : s0.stream_memory_allocations_tracked = s.stream_memory_allocations_tracked := h3
      have h4a : s0.allocations = s.allocations := h4
      have h5a : s0.deallocations = s.deallocations := h5
      have h6a : s0.stream_memory_size = s.stream_memory_size := h6
      have hinc : s0.stream_increment_memory_size = s.stream_increment_memory_size := by
        unfold stream_increment_memory_size; rw [h6a]
      rw [h2a] at hcs
      rw [h2a, h3a, h4a, hinc] at hal
      rw [h2a, h3a] at htr
      refine ⟨by rw [hde, h5a], by rw [hsz, h6a], ?_⟩
      by_cases hbig : (s.at_frame source_id key ft).processing_stream_id > 0 ∧
          s.concurrent_streams + 1 > s.stream_memory_allocations_tracked
      · rw [if_pos hbig] at htr hal
        rw [if_pos hbig.1] at hcs
        exact Or.inr ⟨htr, by omega, hal⟩
      · rw [if_neg hbig] at htr hal
        refine Or.inl ⟨htr, ?_, hal⟩
        rw [hcs]
        split_ifs with hk
        · have : ¬ (s.concurrent_streams + 1 > s.stream_memory_allocations_tracked) :=
            fun hgt => hbig ⟨hk, hgt⟩
          omega
        · exact hle
  | delete_processing_stream key =>
    obtain ⟨_, _, hcs, _, htr, hal, hde, _, _, hsz⟩ := step_delete_spec _ _ _ _ h
    exact ⟨hde, hsz, Or.inl ⟨htr, by omega, hal⟩⟩
  | update_stream_memory_allocations => simp [Call.is_stream_call] at hc
  | update_stream_memory_deallocations => simp [Call.is_stream_call] at hc

/-- The peak of `concurrent_streams` is at least its value at the start. -/
theorem le_peak_concurrent_streams (limit : Nat) (s : Http2FlowData) (calls : List Call) :
    s.concurrent_streams ≤ peak_concurrent_streams limit s calls := by
  cases calls with
  | nil => exact le_refl _
  | cons c cs =>
    simp only [peak_concurrent_streams]
    split
    · exact le_refl _
    · exact le_max_left _ _

/-- After a completed sequence of `get_processing_stream` and `delete_processing_stream`
calls, the tracked amount is the larger of the tracked amount at the start and the blocks
needed for the peak of `concurrent_streams`. -/
theorem run_tracked_peak (limit : Nat) (calls : List Call) :
    ∀ s0 s : Http2FlowData, (∀ c ∈ calls, c.is_stream_call = true) →
      s0.stream_memory_allocations_tracked % 25 = 0 →
      s0.concurrent_streams ≤ s0.stream_memory_allocations_tracked →
      run limit s0 calls = some s →
      s.stream_memory_allocations_tracked =
        max s0.stream_memory_allocations_tracked
          (25 * ((peak_concurrent_streams limit s0 calls + 24) / 25)) ∧
      s.concurrent_streams ≤ s.stream_memory_allocations_tracked := by
  induction calls with
  | nil =>
    intro s0 s _ hmul hle h
    simp only [run, Option.some.injEq] at h
    subst h
    simp only [peak_concurrent_streams]
    exact ⟨by omega, hle⟩
  | cons c cs ih =>
    intro s0 s hcalls hmul hle h
    simp only [run] at h
    simp only [peak_concurrent_streams]
    split at h
    · exact absurd h (by simp)
    · rename_i s1 hs
      have hcase := (step_tracked_cases limit s0 c s1
        (hcalls c (List.mem_cons_self _ _)) hle hs).2.2
      have hpk := le_peak_concurrent_streams limit s1 cs
      unfold STREAM_MEMORY_TRACKING_INCREMENT at hcase
      have hI : s1.stream_memory_allocations_tracked % 25 = 0 ∧
          s1.concurrent_streams ≤ s1.stream_memory_allocations_tracked := by
        rcases hcase with ⟨h1, h2, _⟩ | ⟨h1, h2, _⟩ <;> omega
      obtain ⟨ih1, ih2⟩ := ih s1 s (fun c1 hc1 => hcalls c1 (List.mem_cons_of_mem _ hc1))
        hI.1 hI.2 h
      refine ⟨?_, ih2⟩
      rcases hcase with ⟨h1, h2, _⟩ | ⟨h1, h2, _⟩ <;> omega

/-- The state in which the de-accounting loop of the destructor ends is the state after
its last iteration (the start state when it makes none). -/
theorem deallocation_loop_last (fuel : Nat) :
    ∀ s s1 : Http2FlowData, deallocation_loop fuel s = some s1 →
      (s :: deallocation_loop_states fuel s).getLast? = some s1 := by
  induction fuel with
  | zero =>
    intro s s1 h
    simp only [deallocation_loop] at h
    split_ifs at h
    simp only [Option.some.injEq] at h
    simp [deallocation_loop_states, h]
  | succ n ih =>
    intro s s1 h
    simp only [deallocation_loop] at h
    simp only [deallocation_loop_states]
    split_ifs at h with hgt
    · rw [if_pos hgt]
      split at h
      · exact absurd h (by simp)
      · rename_i s2 hd
        have := ih s2 s1 h
        simp only [List.getLast?_cons_cons]
        exact this
    · rw [if_neg hgt]
      simp only [Option.some.injEq] at h
      simp [h]

/-- After a completed sequence of `get_processing_stream` and `delete_processing_stream`
calls on a flow with `concurrent_streams <= stream_memory_allocations_tracked`, the tracked
amount has grown by one increment for every charge recorded, every charge is one block,
and nothing has been released. -/
theorem run_charges (limit : Nat) (calls : List Call) :
    ∀ s0 s : Http2FlowData, (∀ c ∈ calls, c.is_stream_call = true) →
      s0.concurrent_streams ≤ s0.stream_memory_allocations_tracked →
      run limit s0 calls = some s →
      s.deallocations = s0.deallocations ∧
      s.stream_memory_size = s0.stream_memory_size ∧
      s.concurrent_streams ≤ s.stream_memory_allocations_tracked ∧
      ∃ k, s.allocations = List.replicate k s0.stream_increment_memory_size ++ s0.allocations ∧
        s.stream_memory_allocations_tracked =
          s0.stream_memory_allocations_tracked + STREAM_MEMORY_TRACKING_INCREMENT * k := by
  induction calls with
  | nil =>
    intro s0 s _ hle h
    simp only [run, Option.some.injEq] at h
    subst h
    exact ⟨rfl, rfl, hle, 0, by simp, by simp⟩
  | cons c cs ih =>
    intro s0 s hcalls hle h
    simp only [run] at h
    split at h
    · exact absurd h (by simp)
    · rename_i s1 hs
      obtain ⟨hde, hsz, hcase⟩ := step_tracked_cases limit s0 c s1
        (hcalls c (List.mem_cons_self _ _)) hle hs
      have hinc : s1.stream_increment_memory_size = s0.stream_increment_memory_size := by
        unfold stream_increment_memory_size; rw [hsz]
      have hle1 : s1.concurrent_streams ≤ s1.stream_memory_allocations_tracked := by
        rcases hcase with ⟨h1, h2, _⟩ | ⟨h1, h2, _⟩
        · omega
        · unfold STREAM_MEMORY_TRACKING_INCREMENT at h1; omega
      obtain ⟨ih1, ih2, ih3, k, ih4, ih5⟩ :=
        ih s1 s (fun c1 hc1 => hcalls c1 (List.mem_cons_of_mem _ hc1)) hle1 h
      refine ⟨by rw [ih1, hde], by rw [ih2, hsz], ih3, ?_⟩
      rw [hinc] at ih4
      rcases hcase with ⟨h1, _, h3⟩ | ⟨h1, _, h3⟩
      · exact ⟨k, by rw [ih4, h3], by rw [ih5, h1]⟩
      · refine ⟨k + 1, ?_, ?_⟩
        · rw [ih4, h3, List.replicate_succ']
          simp
        · rw [ih5, h1, Nat.mul_add, Nat.mul_one]
          omega

/-- The de-accounting loop of the destructor, started with `k` increments above the first
and at least `k` iterations allowed, completes after `k` releases of one block each with
one increment tracked. -/
theorem deallocation_loop_spec (fuel : Nat) :
    ∀ (s : Http2FlowData) (k : Nat), k ≤ fuel →
      s.stream_memory_allocations_tracked =
        STREAM_MEMORY_TRACKING_INCREMENT + STREAM_MEMORY_TRACKING_INCREMENT * k →
      ∃ s1, deallocation_loop fuel s = some s1 ∧
        s1.stream_memory_allocations_tracked = STREAM_MEMORY_TRACKING_INCREMENT ∧
        s1.deallocations = List.replicate k s.stream_increment_memory_size ++ s.deallocations ∧
        s1.allocations = s.allocations := by
  induction fuel with
  | zero =>
    intro s k hk htr
    have hk0 : k = 0 := by omega
    subst hk0
    refine ⟨s, ?_, by simpa using htr, by simp, rfl⟩
    simp only [deallocation_loop]
    rw [if_neg (by rw [htr]; simp)]
  | succ n ih =>
    intro s k hk htr
    cases k with
    | zero =>
      refine ⟨s, ?_, by simpa using htr, by simp, rfl⟩
      simp only [deallocation_loop]
      rw [if_neg (by rw [htr]; simp)]
    | succ j =>
      have hgt : s.stream_memory_allocations_tracked > STREAM_MEMORY_TRACKING_INCREMENT := by
        rw [htr]; unfold STREAM_MEMORY_TRACKING_INCREMENT; omega
      have hd : s.update_stream_memory_deallocations =
          some { s with
            deallocations := s.stream_increment_memory_size :: s.deallocations,
            stream_memory_allocations_tracked :=
              s.stream_memory_allocations_tracked - STREAM_MEMORY_TRACKING_INCREMENT } := by
        unfold update_stream_memory_deallocations update_deallocations
        rw [if_neg (by rw [htr]; unfold STREAM_MEMORY_TRACKING_INCREMENT; omega)]
      obtain ⟨s1, h1, h2, h3, h4⟩ := ih
        { s with
            deallocations := s.stream_increment_memory_size :: s.deallocations,
            stream_memory_allocations_tracked :=
              s.stream_memory_allocations_tracked - STREAM_MEMORY_TRACKING_INCREMENT }
        j (by omega)
        (by show s.stream_memory_allocations_tracked - STREAM_MEMORY_TRACKING_INCREMENT = _
            rw [htr]; unfold STREAM_MEMORY_TRACKING_INCREMENT; omega)
      refine ⟨s1, ?_, h2, ?_, h4⟩
      · simp only [deallocation_loop]
        rw [if_pos hgt, hd]
        exact h1
      · rw [h3, List.replicate_succ']
        simp [stream_increment_memory_size]

/-- In a state whose table has no duplicate ids, holds the processing stream and has
`concurrent_streams > 0`, `delete_processing_stream` completes, removes exactly that stream
and keeps the others in their order, decreases `concurrent_streams` by one and clears
`delete_stream`; afterwards the id is not in the table. -/
theorem delete_processing_stream_removes (s : Http2FlowData)
    (hnd : (stream_ids s.streams).Nodup)
    (hin : s.find_stream s.processing_stream_id ≠ none)
    (hpos : 0 < s.concurrent_streams) :
    ∃ s1, s.delete_processing_stream = some s1 ∧
      (∃ a stream b, s.streams = a ++ stream :: b ∧
        stream.stream_id = s.processing_stream_id ∧ s1.streams = a ++ b) ∧
      s1.concurrent_streams + 1 = s.concurrent_streams ∧
      s1.delete_stream = false ∧
      s1.processing_stream_id = s.processing_stream_id ∧
      s1.find_stream s.processing_stream_id = none := by
  have hmem : s.processing_stream_id ∈ stream_ids s.streams := by
    by_contra hcon
    exact hin ((find_in_eq_none _ _).mpr hcon)
  obtain ⟨l1, he⟩ := erase_stream_of_mem _ _ hmem
  obtain ⟨a, st, b, hl, hid, hl1, _⟩ := erase_stream_split _ _ _ he
  have hd : s.delete_processing_stream =
      some { s with streams := l1, delete_stream := false,
                    concurrent_streams := s.concurrent_streams - 1 } := by
    unfold delete_processing_stream
    rw [he]
    simp only
    rw [if_neg (fun hn => hn hpos)]
  refine ⟨_, hd, ⟨a, st, b, hl, hid, hl1⟩, ?_, rfl, rfl, ?_⟩
  · show s.concurrent_streams - 1 + 1 = s.concurrent_streams
    omega
  · show find_in l1 s.processing_stream_id = none
    rw [find_in_eq_none, hl1]
    rw [hl] at hnd
    simp only [stream_ids, List.map_append, List.map_cons, hid] at hnd ⊢
    exact (List.nodup_cons.mp (List.nodup_middle.mp hnd)).1

/-- A table that holds a non-zero id has at least one stream with a non-zero id. -/
theorem nonzero_streams_pos (l : List Http2Stream) (key : Nat) (hmem : key ∈ stream_ids l)
    (hne : key ≠ 0) : 0 < nonzero_streams l := by
  unfold stream_ids at hmem
  obtain ⟨st, hst, hid⟩ := List.mem_map.mp hmem
  unfold nonzero_streams
  rw [List.countP_pos_iff]
  exact ⟨st, hst, by simp [hid, hne]⟩

/-- The test for a non-housekeeping frame of the source is `non_housekeeping`. -/
theorem non_housekeeping_test (ft : FrameType) :
    (decide (ft = FrameType.FT_HEADERS) || decide (ft = FrameType.FT_DATA) ||
      decide (ft = FrameType.FT_PUSH_PROMISE)) = non_housekeeping ft := by
  cases ft <;> rfl

/-- The test for the expected side of the source holds exactly for `on_expected_side`. -/
theorem on_expected_side_test (source_id : SourceId) (key : Nat) :
    ((decide (key % 2 ≠ 0) && decide (source_id = SourceId.SRC_CLIENT)) ||
      (decide (key % 2 = 0) && decide (source_id = SourceId.SRC_SERVER))) = true ↔
    on_expected_side source_id key := by
  unfold on_expected_side
  simp

/-- A call of `get_processing_stream` that creates a stream: the limit is not reached, and
`allocate_new_stream` runs in the state that the checks of the id leave: unchanged for
id 0 and for a non-housekeeping frame on the other side, with `max_stream_id` of the side
raised to the id for a non-housekeeping frame on the expected side, with `delete_stream`
set for a housekeeping frame. -/
theorem get_processing_stream_created (s s1 : Http2FlowData) (source_id : SourceId)
    (limit : Nat) (stream : Http2Stream)
    (hnot : s.find_stream s.processing_stream_id = none)
    (hget : s.get_processing_stream source_id limit = some (s1, some stream)) :
    s.concurrent_streams < limit ∧
    ∃ s0, allocate_new_stream s0 s.processing_stream_id = some (s1, some stream) ∧
      ((s.processing_stream_id = 0 ∧ s0 = s) ∨
       (s.processing_stream_id ≠ 0 ∧ non_housekeeping (s.frame_type.get source_id) = true ∧
          on_expected_side source_id s.processing_stream_id ∧
          s.max_stream_id.get source_id < s.processing_stream_id ∧
          s0 = { s with max_stream_id :=
                   s.max_stream_id.set source_id s.processing_stream_id }) ∨
       (s.processing_stream_id ≠ 0 ∧ non_housekeeping (s.frame_type.get source_id) = true ∧
          ¬ on_expected_side source_id s.processing_stream_id ∧ s0 = s) ∨
       (s.processing_stream_id ≠ 0 ∧ non_housekeeping (s.frame_type.get source_id) = false ∧
          s0 = { s with delete_stream := true })) := by
  unfold get_processing_stream at hget
  simp only [hnot, non_housekeeping_test] at hget
  split_ifs at hget with h1 h2 h3 h4 h5
  · simp at hget
  · simp at hget
  · exact ⟨by omega, _, hget, Or.inr (Or.inl ⟨h2, h3,
      (on_expected_side_test _ _).mp h4, by omega, rfl⟩)⟩
  · exact ⟨by omega, _, hget, Or.inr (Or.inr (Or.inl ⟨h2, h3,
      fun hside => h4 ((on_expected_side_test _ _).mpr hside), rfl⟩))⟩
  · exact ⟨by omega, _, hget, Or.inr (Or.inr (Or.inr ⟨h2, by simpa using h3, rfl⟩))⟩
  · exact ⟨by omega, _, hget, Or.inl ⟨by simpa using h2, rfl⟩⟩

/-- The call `update_stream_memory_allocations` completes exactly when the divisor of its
second assertion is not zero and its two assertions hold. -/
theorem update_stream_memory_allocations_completes_iff (s : Http2FlowData) :
    (∃ s1, s.update_stream_memory_allocations = some s1) ↔
      (s.stream_memory_allocations_tracked ≠ 0 ∧
       s.concurrent_streams > s.stream_memory_allocations_tracked ∧
       s.concurrent_streams % s.stream_memory_allocations_tracked = 1) := by
  unfold update_stream_memory_allocations
  constructor
  · rintro ⟨s1, h⟩
    split_ifs at h with h1 h2 h3
    exact ⟨h2, by omega, by omega⟩
  · rintro ⟨h0, h1, h2⟩
    rw [if_neg (by omega), if_neg h0, if_neg (by omega)]
    exact ⟨_, rfl⟩

/-- One above a number that is at least 2 leaves the remainder 1. -/
theorem succ_mod_self (n : Nat) (h : 2 ≤ n) : (n + 1) % n = 1 := by
  rw [Nat.add_mod_left]
  exact Nat.mod_eq_of_lt (by omega)

/-- With `concurrent_streams <= stream_memory_allocations_tracked` and at least 2 tracked,
`allocate_new_stream` completes: the assertions of `update_stream_memory_allocations`
hold when it is called. -/
theorem allocate_new_stream_completes (s : Http2FlowData) (key : Nat)
    (hle : s.concurrent_streams ≤ s.stream_memory_allocations_tracked)
    (h2 : 2 ≤ s.stream_memory_allocations_tracked) :
    ∃ s1, allocate_new_stream s key = some (s1, some { stream_id := key }) := by
  have hcall : ∀ t : Http2FlowData,
      t.concurrent_streams > t.stream_memory_allocations_tracked →
      t.stream_memory_allocations_tracked = s.stream_memory_allocations_tracked →
      t.concurrent_streams = s.concurrent_streams + 1 →
      ∃ t1, t.update_stream_memory_allocations = some t1 := by
    intro t hgt ht hc
    rw [update_stream_memory_allocations_completes_iff]
    refine ⟨by omega, hgt, ?_⟩
    have : t.concurrent_streams = t.stream_memory_allocations_tracked + 1 := by omega
    rw [this]
    exact succ_mod_self _ (by omega)
  unfold allocate_new_stream
  simp only
  split_ifs with hk hp hgt hgt
  · obtain ⟨t1, ht1⟩ := hcall _ hgt rfl rfl
    rw [ht1]
    exact ⟨_, rfl⟩
  · exact ⟨_, rfl⟩
  · obtain ⟨t1, ht1⟩ := hcall _ hgt rfl rfl
    rw [ht1]
    exact ⟨_, rfl⟩
  · exact ⟨_, rfl⟩
  · exact ⟨_, rfl⟩

/-- With `concurrent_streams <= stream_memory_allocations_tracked` and at least 2 tracked,
`get_processing_stream` completes; and when it has changed the tracked amount, which only
its call of `update_stream_memory_allocations` does, then in the state of that call
(`concurrent_streams` as after the call, the tracked amount as before it) the tracked amount
was not zero and `concurrent_streams` was exactly one above it. -/
theorem get_processing_stream_completes (s : Http2FlowData) (source_id : SourceId)
    (limit : Nat)
    (hle : s.concurrent_streams ≤ s.stream_memory_allocations_tracked)
    (h2 : 2 ≤ s.stream_memory_allocations_tracked) :
    ∃ s1 r, s.get_processing_stream source_id limit = some (s1, r) ∧
      (s1.stream_memory_allocations_tracked ≠ s.stream_memory_allocations_tracked →
        s.stream_memory_allocations_tracked ≠ 0 ∧
        s1.concurrent_streams > s.stream_memory_allocations_tracked ∧
        s1.concurrent_streams % s.stream_memory_allocations_tracked = 1 ∧
        s1.concurrent_streams = s.stream_memory_allocations_tracked + 1 ∧
        s1.stream_memory_allocations_tracked =
          s.stream_memory_allocations_tracked + STREAM_MEMORY_TRACKING_INCREMENT) := by
  have hdone : ∃ s1 r, s.get_processing_stream source_id limit = some (s1, r) := by
    unfold get_processing_stream
    simp only
    split
    · exact ⟨_, _, rfl⟩
    · split_ifs
      · exact ⟨_, _, rfl⟩
      · exact ⟨_, _, rfl⟩
      · obtain ⟨s1, h⟩ := allocate_new_stream_completes
          { s with max_stream_id := s.max_stream_id.set source_id s.processing_stream_id }
          s.processing_stream_id hle h2
        exact ⟨_, _, h⟩
      · obtain ⟨s1, h⟩ := allocate_new_stream_completes s s.processing_stream_id hle h2
        exact ⟨_, _, h⟩
      · obtain ⟨s1, h⟩ := allocate_new_stream_completes { s with delete_stream := true }
          s.processing_stream_id hle h2
        exact ⟨_, _, h⟩
      · obtain ⟨s1, h⟩ := allocate_new_stream_completes s s.processing_stream_id hle h2
        exact ⟨_, _, h⟩
  obtain ⟨s1, r, hget⟩ := hdone
  refine ⟨s1, r, hget, fun hne => ?_⟩
  rcases get_processing_stream_cases _ _ _ _ _ hget with ⟨_, _, rfl⟩ | ⟨_, _, hs, _⟩ |
    ⟨_, _, s0, ha, hs, _⟩
  · exact absurd rfl hne
  · exact absurd hs.2.2.1 hne
  · obtain ⟨_, _, hcs, htr, _⟩ := allocate_new_stream_spec _ _ _ _ ha
    obtain ⟨_, hs2, hs3, _⟩ := hs
    rw [hs2] at hcs
    rw [hs2, hs3] at htr
    by_cases hbig : s.processing_stream_id > 0 ∧
        s.concurrent_streams + 1 > s.stream_memory_allocations_tracked
    · rw [if_pos hbig] at htr
      rw [if_pos hbig.1] at hcs
      have heq : s1.concurrent_streams = s.stream_memory_allocations_tracked + 1 := by omega
      refine ⟨by omega, by omega, ?_, heq, htr⟩
      rw [heq]
      exact succ_mod_self _ h2
    · rw [if_neg hbig] at htr
      exact absurd htr hne

/-- Where `delete_processing_stream` completes in the build with assertions, the build
with `NDEBUG` returns the same state. -/
theorem delete_processing_stream_ndebug_eq (s s1 : Http2FlowData)
    (h : s.delete_processing_stream = some s1) (hlt : s.concurrent_streams < 4294967296) :
    s.delete_processing_stream_ndebug = s1 := by
  unfold delete_processing_stream at h
  unfold delete_processing_stream_ndebug
  split at h
  · exact absurd h (by simp)
  · rename_i rest he
    simp only at h
    split_ifs at h with hpos
    simp only [Option.some.injEq] at h
    have hdec : (s.concurrent_streams + 4294967295) % 4294967296 =
        s.concurrent_streams - 1 := by omega
    simp only [hdec]
    exact h

/-- In a build with `NDEBUG`, a call of `get_processing_stream`, or of
`delete_processing_stream` for an id other than 0, made in a state with the relations
`counters_in_step`, completes and keeps these relations; it either keeps the tracked
amount, or has raised `concurrent_streams` to one above it and adds one increment. -/
theorem step_ndebug_counters (limit : Nat) (s : Http2FlowData) (c : Call)
    (hlimit : limit < 4294967296)
    (hc : c.is_stream_call = true) (hc0 : c ≠ Call.delete_processing_stream 0)
    (hinv : counters_in_step limit s) :
    ∃ s1, step_ndebug limit s c = some s1 ∧ counters_in_step limit s1 ∧
      ((s1.stream_memory_allocations_tracked = s.stream_memory_allocations_tracked ∧
          s1.concurrent_streams ≤ s.stream_memory_allocations_tracked) ∨
       (s1.stream_memory_allocations_tracked = s.stream_memory_allocations_tracked + 25 ∧
          s1.concurrent_streams = s.stream_memory_allocations_tracked + 1)) := by
  obtain ⟨hcount, hle, hmul, h25, hlim⟩ := hinv
  cases c with
  | get_processing_stream source_id key ft =>
    obtain ⟨s1, r, hget, _⟩ := get_processing_stream_completes (s.at_frame source_id key ft)
      source_id limit hle (by show 2 ≤ s.stream_memory_allocations_tracked; omega)
    have hstep : step limit s (Call.get_processing_stream source_id key ft) = some s1 := by
      simp only [step, hget]
    have h1 := step_count limit s _ s1 hc0 hcount hstep
    have h2 := (step_tracked_cases limit s _ s1 hc hle hstep).2.2
    have h3 := step_concurrent_streams_le limit s _ s1 hlim hstep
    unfold STREAM_MEMORY_TRACKING_INCREMENT at h2
    refine ⟨s1, hstep, ⟨h1, ?_, ?_, ?_, h3⟩, ?_⟩
    · rcases h2 with ⟨a, b, _⟩ | ⟨a, b, _⟩ <;> omega
    · rcases h2 with ⟨a, b, _⟩ | ⟨a, b, _⟩ <;> omega
    · rcases h2 with ⟨a, b, _⟩ | ⟨a, b, _⟩ <;> omega
    · rcases h2 with ⟨a, b, _⟩ | ⟨a, b, _⟩
      · exact Or.inl ⟨a, b⟩
      · exact Or.inr ⟨a, b⟩
  | delete_processing_stream key =>
    have hk : key ≠ 0 := fun h0 => hc0 (by rw [h0])
    refine ⟨_, rfl, ?_⟩
    unfold delete_processing_stream_ndebug
    simp only
    split
    · exact ⟨⟨hcount, hle, hmul, h25, hlim⟩, Or.inl ⟨rfl, hle⟩⟩
    · rename_i rest he
      have hno := erase_stream_nonzero _ _ _ he
      simp only [hk, if_false] at hno
      have hno1 : nonzero_streams s.streams = nonzero_streams rest + 1 := hno
      have hdec : (s.concurrent_streams + 4294967295) % 4294967296 =
          s.concurrent_streams - 1 := by omega
      simp only [counters_in_step, hdec]
      refine ⟨⟨by omega, by omega, hmul, h25, by omega⟩, Or.inl ⟨trivial, by omega⟩⟩
  | update_stream_memory_allocations => simp [Call.is_stream_call] at hc
  | update_stream_memory_deallocations => simp [Call.is_stream_call] at hc

/-- The peak of `concurrent_streams` in a build with `NDEBUG` is at least its value at the
start. -/
theorem le_peak_concurrent_streams_ndebug (limit : Nat) (s : Http2FlowData)
    (calls : List Call) :
    s.concurrent_streams ≤ peak_concurrent_streams_ndebug limit s calls := by
  cases calls with
  | nil => exact le_refl _
  | cons c cs =>
    simp only [peak_concurrent_streams_ndebug]
    split
    · exact le_refl _
    · exact le_max_left _ _

/-- In a build with `NDEBUG`, every sequence of `get_processing_stream` calls and of
`delete_processing_stream` calls for ids other than 0, started in a state with the
relations `counters_in_step`, completes, keeps these relations, and ends with the tracked
amount at the larger of its value at the start and the blocks needed for the peak of
`concurrent_streams`. -/
theorem run_ndebug_tracked_peak (limit : Nat) (hlimit : limit < 4294967296)
    (calls : List Call) :
    ∀ s0 : Http2FlowData,
      (∀ c ∈ calls, c.is_stream_call = true ∧ c ≠ Call.delete_processing_stream 0) →
      counters_in_step limit s0 →
      ∃ s, run_ndebug limit s0 calls = some s ∧ counters_in_step limit s ∧
        s.stream_memory_allocations_tracked =
          max s0.stream_memory_allocations_tracked
            (25 * ((peak_concurrent_streams_ndebug limit s0 calls + 24) / 25)) := by
  induction calls with
  | nil =>
    intro s0 _ hinv
    refine ⟨s0, rfl, hinv, ?_⟩
    obtain ⟨_, hle, hmul, _, _⟩ := hinv
    simp only [peak_concurrent_streams_ndebug]
    omega
  | cons c cs ih =>
    intro s0 hcalls hinv
    obtain ⟨hc, hc0⟩ := hcalls c (List.mem_cons_self _ _)
    obtain ⟨s1, hs1, hinv1, hcase⟩ := step_ndebug_counters limit s0 c hlimit hc hc0 hinv
    obtain ⟨s, hrun, hinvs, htr⟩ := ih s1
      (fun c1 hc1 => hcalls c1 (List.mem_cons_of_mem _ hc1)) hinv1
    have hpk := le_peak_concurrent_streams_ndebug limit s1 cs
    obtain ⟨_, hle, hmul, _, _⟩ := hinv
    refine ⟨s, by simp only [run_ndebug, hs1]; exact hrun, hinvs, ?_⟩
    simp only [peak_concurrent_streams_ndebug, hs1]
    rcases hcase with ⟨h1, h2⟩ | ⟨h1, h2⟩ <;> omega

/-! ## The claims -/

/-- In the build with assertions: for a flow that starts with `concurrent_streams = 0`,
after every sequence of calls that completes, `concurrent_streams` is at most the limit
given to `get_processing_stream`. -/
theorem concurrent_streams_le_limit (limit : Nat) (s0 : Http2FlowData)
    (_hstreams : s0.streams = []) (hzero : s0.concurrent_streams = 0)
    (calls : List Call) (s : Http2FlowData) (h : run limit s0 calls = some s) :
    s.concurrent_streams ≤ limit :=
  run_preserves limit (fun _ => True) (fun s => s.concurrent_streams ≤ limit)
    (fun s c s1 _ hP hs => step_concurrent_streams_le limit s c s1 hP hs)
    calls s0 s (fun _ _ => trivial) (by simp [hzero]) h

/-- C1 fails on the code: on a fresh flow a SETTINGS frame on stream 0 creates stream 0,
which is not counted, and `delete_processing_stream` for stream 0 decrements
`concurrent_streams` all the same.  In a build with `NDEBUG` the sequence ends with
`concurrent_streams = 4294967295`, above the limit 100; in a build with assertions the
second call stops at `assert(concurrent_streams > 0)`. -/
theorem concurrent_streams_exceeds_limit :
    run_ndebug 100 (fresh 64 ⟨1, 1, 0, 0⟩) example_calls_only_zero =
      some example_state_wrapped ∧
    example_state_wrapped.concurrent_streams = 4294967295 ∧
    ¬ example_state_wrapped.concurrent_streams ≤ 100 ∧
    run 100 (fresh 64 ⟨1, 1, 0, 0⟩) example_calls_only_zero = none := by
  decide

/-- The refusal for too many streams, from its three conditions. -/
theorem refused_of_full (s : Http2FlowData) (source_id : SourceId) (limit : Nat)
    (hnot : s.find_stream s.processing_stream_id = none)
    (hfull : limit ≤ s.concurrent_streams) :
    refused_too_many_streams s source_id limit := by
  unfold refused_too_many_streams get_processing_stream
  simp only [hnot]
  rw [if_pos hfull]
  refine ⟨_, rfl, ?_, ?_, ?_, ?_, rfl, rfl, rfl, rfl, rfl⟩
  · cases source_id <;>
      by_cases hm : Infraction.INF_TOO_MANY_STREAMS ∈ s.infractions.client <;>
      by_cases hm1 : Infraction.INF_TOO_MANY_STREAMS ∈ s.infractions.server <;>
      simp [add_infraction, create_event, Sides.get, Sides.set, hm, hm1]
  · cases source_id <;> simp [add_infraction, create_event, Sides.get, Sides.set]
  · simp [Sides.get, Sides.set]
  · simp [Sides.get, Sides.set]

/-- C2: when `processing_stream_id = id > 0` is not in the stream table and
`concurrent_streams >= limit`, `get_processing_stream` returns no stream, adds the
infraction and the event `TooManyStreams` on the calling side, sets `abort_flow` for both
directions and leaves the stream table, `concurrent_streams`, `max_stream_id`,
`delete_stream` and `stream_memory_allocations_tracked` unchanged.  In particular: after a
sequence of `get_processing_stream` calls on a fresh flow that has created `limit` streams
with a non-zero id (the table then holds exactly the created streams), the creation of one
more stream with a non-zero id is refused in this way. -/
theorem too_many_streams (limit : Nat) :
    (∀ (s : Http2FlowData) (source_id : SourceId),
      0 < s.processing_stream_id →
      s.find_stream s.processing_stream_id = none →
      limit ≤ s.concurrent_streams →
      refused_too_many_streams s source_id limit) ∧
    (∀ (sz : Nat) (pegs : PegCounts) (calls : List Call) (s : Http2FlowData)
        (source_id : SourceId) (key : Nat) (ft : FrameType),
      (∀ c ∈ calls, c.is_get_call = true) →
      run limit (fresh sz pegs) calls = some s →
      nonzero_streams s.streams = limit →
      0 < key →
      s.find_stream key = none →
      refused_too_many_streams (s.at_frame source_id key ft) source_id limit) := by
  constructor
  · intro s source_id _ hnot hfull
    exact refused_of_full s source_id limit hnot hfull
  · intro sz pegs calls s source_id key ft hget hrun hcount _ hnot
    have hc : ∀ c ∈ calls, c ≠ Call.delete_processing_stream 0 := by
      intro c hmem heq
      have := hget c hmem
      rw [heq] at this
      simp [Call.is_get_call] at this
    have hcs := run_count limit (fresh sz pegs) s calls rfl rfl hc hrun
    apply refused_of_full
    · exact hnot
    · show limit ≤ s.concurrent_streams
      omega

/-- Witness for C2: with limit 2 and streams 1 and 3 open, stream 5 is refused; and the
same after the two creations from a fresh flow. -/
theorem too_many_streams_witness :
    refused_too_many_streams example_state_full SourceId.SRC_CLIENT 2 ∧
    refused_too_many_streams
      (example_state_two.at_frame SourceId.SRC_CLIENT 5 FrameType.FT_HEADERS)
      SourceId.SRC_CLIENT 2 :=
  ⟨(too_many_streams 2).1 example_state_full SourceId.SRC_CLIENT (by decide) rfl (by decide),
   (too_many_streams 2).2 64 ⟨1, 1, 0, 0⟩ example_calls_two example_state_two
     SourceId.SRC_CLIENT 5 FrameType.FT_HEADERS (by decide) rfl rfl (by decide) rfl⟩

/-- C3: with `concurrent_streams < limit`, for a side and an id > 0 that is not in the
stream table: if the frame type on that side is HEADERS, DATA or PUSH_PROMISE, the parity
of the id matches the side and the id is at most `max_stream_id` of the side, then
`get_processing_stream` returns no stream, adds the infraction and the event
`InvalidStreamId` on that side and creates nothing. -/
theorem invalid_stream_id (s : Http2FlowData) (source_id : SourceId) (limit : Nat)
    (hlt : s.concurrent_streams < limit)
    (hpos : 0 < s.processing_stream_id)
    (hnot : s.find_stream s.processing_stream_id = none)
    (hft : non_housekeeping (s.frame_type.get source_id) = true)
    (hside : on_expected_side source_id s.processing_stream_id)
    (hmax : s.processing_stream_id ≤ s.max_stream_id.get source_id) :
    refused_invalid_stream_id s source_id limit := by
  have hnh : (decide (s.frame_type.get source_id = FrameType.FT_HEADERS) ||
      decide (s.frame_type.get source_id = FrameType.FT_DATA) ||
      decide (s.frame_type.get source_id = FrameType.FT_PUSH_PROMISE)) = true := by
    revert hft
    cases s.frame_type.get source_id <;> simp [non_housekeeping]
  have hexp : ((decide (s.processing_stream_id % 2 ≠ 0) &&
        decide (source_id = SourceId.SRC_CLIENT)) ||
      (decide (s.processing_stream_id % 2 = 0) &&
        decide (source_id = SourceId.SRC_SERVER))) = true := by
    rcases hside with ⟨h1, h2⟩ | ⟨h1, h2⟩ <;> simp [h1, h2]
  unfold refused_invalid_stream_id get_processing_stream
  simp only [hnot]
  rw [if_neg (by omega), if_pos (by omega), if_pos hnh, if_pos hexp, if_pos hmax]
  refine ⟨_, rfl, ?_, ?_, rfl, rfl, rfl, hnot⟩
  · cases source_id <;>
      by_cases hm : Infraction.INF_INVALID_STREAM_ID ∈ s.infractions.client <;>
      by_cases hm1 : Infraction.INF_INVALID_STREAM_ID ∈ s.infractions.server <;>
      simp [add_infraction, create_event, Sides.get, Sides.set, hm, hm1]
  · cases source_id <;> simp [add_infraction, create_event, Sides.get, Sides.set]

/-- Witness for C3: the client sends HEADERS on stream 3 and then HEADERS on stream 1; the
first call creates stream 3, the second is refused and no stream 1 exists. -/
theorem invalid_stream_id_witness :
    run 100 (fresh 64 ⟨1, 1, 0, 0⟩)
      [Call.get_processing_stream SourceId.SRC_CLIENT 3 FrameType.FT_HEADERS] =
      some example_state_three ∧
    refused_invalid_stream_id
      (example_state_three.at_frame SourceId.SRC_CLIENT 1 FrameType.FT_HEADERS)
      SourceId.SRC_CLIENT 100 :=
  ⟨rfl, invalid_stream_id
    (example_state_three.at_frame SourceId.SRC_CLIENT 1 FrameType.FT_HEADERS)
    SourceId.SRC_CLIENT 100 (by decide) (by decide) rfl rfl
    (Or.inl ⟨by decide, rfl⟩) (by decide)⟩

/-- C4 as stated fails: the server sends HEADERS on stream 2 and then HEADERS on stream 0;
both calls create a stream on the server side for a non-housekeeping frame with an even
id, and the sequence of created ids is 2, 0. -/
theorem created_ids_not_increasing :
    created_ids 100 SourceId.SRC_SERVER (fresh 64 ⟨1, 1, 0, 0⟩)
        [Call.get_processing_stream SourceId.SRC_SERVER 2 FrameType.FT_HEADERS,
         Call.get_processing_stream SourceId.SRC_SERVER 0 FrameType.FT_HEADERS] = [2, 0] ∧
    ¬ List.Pairwise (fun a b => a < b)
      (created_ids 100 SourceId.SRC_SERVER (fresh 64 ⟨1, 1, 0, 0⟩)
        [Call.get_processing_stream SourceId.SRC_SERVER 2 FrameType.FT_HEADERS,
         Call.get_processing_stream SourceId.SRC_SERVER 0 FrameType.FT_HEADERS]) := by
  have h : created_ids 100 SourceId.SRC_SERVER (fresh 64 ⟨1, 1, 0, 0⟩)
        [Call.get_processing_stream SourceId.SRC_SERVER 2 FrameType.FT_HEADERS,
         Call.get_processing_stream SourceId.SRC_SERVER 0 FrameType.FT_HEADERS] = [2, 0] := by
    decide
  refine ⟨h, ?_⟩
  rw [h]
  decide

/-- C4, amended: for every sequence of calls on a fresh flow and each side, the sequence of
stream ids > 0 for which `get_processing_stream` created a new stream on that side for a
non-housekeeping frame with an id whose parity matches the side is strictly increasing,
also when streams were deleted in between. -/
theorem created_ids_increasing (limit sz : Nat) (pegs : PegCounts) (side : SourceId)
    (calls : List Call) :
    List.Pairwise (fun a b => a < b)
      ((created_ids limit side (fresh sz pegs) calls).filter (fun k => decide (0 < k))) :=
  (created_ids_above limit side calls (fresh sz pegs)).1

/-- C5 fails on the code for stream 0: after a SETTINGS frame on stream 0 on a fresh flow,
stream 0 is in the table and `processing_stream_id` is 0, but `concurrent_streams` is 0,
because the creation does not count stream 0.  `delete_processing_stream` decrements all
the same: in a build with assertions it stops at `assert(concurrent_streams > 0)`, in a
build with `NDEBUG` it returns with `concurrent_streams = 4294967295`, not one less. -/
theorem delete_stream_zero_fails :
    run 100 (fresh 64 ⟨1, 1, 0, 0⟩)
      [Call.get_processing_stream SourceId.SRC_CLIENT 0 FrameType.FT_SETTINGS] =
      some example_state_zero ∧
    example_state_zero.find_stream example_state_zero.processing_stream_id =
      some { stream_id := 0 } ∧
    example_state_zero.concurrent_streams = 0 ∧
    example_state_zero.delete_processing_stream = none ∧
    example_state_zero.delete_processing_stream_ndebug.concurrent_streams = 4294967295 := by
  decide

/-- For a processing stream with an id other than 0 that is in the table, in a state
reached from a fresh flow without a deletion of stream 0, `delete_processing_stream`
completes, removes exactly that stream and keeps the others in their order, decreases
`concurrent_streams` by exactly one and clears `delete_stream`; afterwards the id is not in
the table. -/
theorem delete_removes_stream (limit sz : Nat) (pegs : PegCounts) (calls : List Call)
    (s : Http2FlowData)
    (hcalls : ∀ c ∈ calls, c ≠ Call.delete_processing_stream 0)
    (hrun : run limit (fresh sz pegs) calls = some s)
    (hin : s.find_stream s.processing_stream_id ≠ none)
    (hne : s.processing_stream_id ≠ 0) :
    ∃ s1, s.delete_processing_stream = some s1 ∧
      (∃ a stream b, s.streams = a ++ stream :: b ∧
        stream.stream_id = s.processing_stream_id ∧ s1.streams = a ++ b) ∧
      s1.concurrent_streams + 1 = s.concurrent_streams ∧
      s1.delete_stream = false ∧
      s1.processing_stream_id = s.processing_stream_id ∧
      s1.find_stream s.processing_stream_id = none := by
  have hnd := run_nodup limit (fresh sz pegs) s calls rfl hrun
  have hcount := run_count limit (fresh sz pegs) s calls rfl rfl hcalls hrun
  have hmem : s.processing_stream_id ∈ stream_ids s.streams := by
    by_contra hcon
    exact hin ((find_in_eq_none _ _).mpr hcon)
  have hpos := nonzero_streams_pos s.streams s.processing_stream_id hmem hne
  exact delete_processing_stream_removes s hnd hin (by omega)

/-- C6 fails on the code at a deletion of stream 0: stream 1 and stream 0 are created, only
stream 1 is counted, and stream 0, which is in the table, is deleted; the deletion
decrements `concurrent_streams`, so that stream 1 is still in the table with
`concurrent_streams = 0`.  No assertion fails; both builds end in the same state. -/
theorem concurrent_streams_ne_nonzero :
    run 100 (fresh 64 ⟨1, 1, 0, 0⟩) example_calls_delete_zero =
      some example_state_delete_zero ∧
    run_ndebug 100 (fresh 64 ⟨1, 1, 0, 0⟩) example_calls_delete_zero =
      some example_state_delete_zero ∧
    example_state_delete_zero.concurrent_streams = 0 ∧
    nonzero_streams example_state_delete_zero.streams = 1 ∧
    example_state_delete_zero.concurrent_streams ≠
      nonzero_streams example_state_delete_zero.streams := by
  decide

/-- After calls among which stream 0 is never deleted, `concurrent_streams` equals the
number of streams in the table whose id is not 0 (build with assertions). -/
theorem concurrent_streams_eq_nonzero (limit sz : Nat) (pegs : PegCounts)
    (calls : List Call) (s : Http2FlowData)
    (hcalls : ∀ c ∈ calls, c ≠ Call.delete_processing_stream 0)
    (hrun : run limit (fresh sz pegs) calls = some s) :
    s.concurrent_streams = nonzero_streams s.streams :=
  run_count limit (fresh sz pegs) s calls rfl rfl hcalls hrun

/-- C7: in every state reachable from a fresh flow no two streams of the table have the
same id; in particular a stream with id 0 is in the table at most once. -/
theorem stream_ids_nodup (limit sz : Nat) (pegs : PegCounts) (calls : List Call)
    (s : Http2FlowData) (hrun : run limit (fresh sz pegs) calls = some s) :
    (stream_ids s.streams).Nodup ∧
    List.Pairwise (fun a b => a.stream_id ≠ b.stream_id) s.streams ∧
    (s.streams.filter (fun stream => decide (stream.stream_id = 0))).length ≤ 1 := by
  have hnd := run_nodup limit (fresh sz pegs) s calls rfl hrun
  refine ⟨hnd, ?_, ?_⟩
  · unfold stream_ids at hnd
    exact (List.pairwise_map.mp hnd)
  · have hc := List.nodup_iff_count_le_one.mp hnd 0
    have heq : (s.streams.filter (fun stream => decide (stream.stream_id = 0))).length =
        List.count 0 (stream_ids s.streams) := by
      unfold stream_ids
      generalize s.streams = l
      induction l with
      | nil => simp
      | cons st rest ih =>
        by_cases h0 : st.stream_id = 0
        · simp [List.filter_cons, h0, List.count_cons, ih]
        · simp [List.filter_cons, h0, List.count_cons, ih]
    omega

/-- Witness for C7: streams 1 and 3 are created and stream 1 is asked for again; the table
holds the ids 3 and 1 once each. -/
theorem stream_ids_nodup_witness :
    run 100 (fresh 64 ⟨1, 1, 0, 0⟩) example_calls_again = some example_state_again ∧
    stream_ids example_state_again.streams = [3, 1] ∧
    ((stream_ids example_state_again.streams).Nodup ∧
     List.Pairwise (fun a b => a.stream_id ≠ b.stream_id) example_state_again.streams ∧
     (example_state_again.streams.filter
        (fun stream => decide (stream.stream_id = 0))).length ≤ 1) :=
  ⟨rfl, rfl, stream_ids_nodup 100 64 ⟨1, 1, 0, 0⟩ example_calls_again example_state_again rfl⟩

/-- C8: for a flow whose `stream_memory_allocations_tracked` starts at one increment, after
every completed sequence of calls of `get_processing_stream`, `delete_processing_stream`,
`update_stream_memory_allocations` and `update_stream_memory_deallocations`, and after
every iteration of the de-accounting loop of the destructor run in the state reached,
`stream_memory_allocations_tracked` is a multiple of `STREAM_MEMORY_TRACKING_INCREMENT`. -/
theorem tracked_multiple_of_increment (limit : Nat) (s0 : Http2FlowData) (calls : List Call)
    (s : Http2FlowData)
    (hstart : s0.stream_memory_allocations_tracked = STREAM_MEMORY_TRACKING_INCREMENT)
    (hrun : run limit s0 calls = some s) :
    s.stream_memory_allocations_tracked % STREAM_MEMORY_TRACKING_INCREMENT = 0 ∧
    ∀ fuel, ∀ s1 ∈ deallocation_loop_states fuel s.destructor_release,
      s1.stream_memory_allocations_tracked % STREAM_MEMORY_TRACKING_INCREMENT = 0 := by
  have hs : s.stream_memory_allocations_tracked % STREAM_MEMORY_TRACKING_INCREMENT = 0 :=
    run_preserves limit (fun _ => True)
      (fun s => s.stream_memory_allocations_tracked % STREAM_MEMORY_TRACKING_INCREMENT = 0)
      (fun s c s1 _ hP hstep => step_tracked_multiple limit s c s1 hP hstep)
      calls s0 s (fun _ _ => trivial)
      (by show s0.stream_memory_allocations_tracked % STREAM_MEMORY_TRACKING_INCREMENT = 0
          rw [hstart]; rfl) hrun
  refine ⟨hs, fun fuel s1 hs1 => ?_⟩
  refine deallocation_loop_states_multiple fuel s.destructor_release ?_ s1 hs1
  have : s.destructor_release.stream_memory_allocations_tracked =
      s.stream_memory_allocations_tracked := by
    unfold destructor_release
    split_ifs <;> rfl
  rw [this]
  exact hs

/-- Witness for C8: after 26 creations and one deletion two increments are tracked, and
the loop of the destructor makes one iteration, after which one increment is tracked. -/
theorem tracked_multiple_of_increment_witness :
    run 100 (fresh 64 ⟨1, 1, 0, 0⟩) example_calls_many = some example_state_many ∧
    example_state_many.stream_memory_allocations_tracked = 50 ∧
    (deallocation_loop_states 50 example_state_many.destructor_release).map
      (fun s1 => s1.stream_memory_allocations_tracked) = [25] ∧
    (example_state_many.stream_memory_allocations_tracked %
        STREAM_MEMORY_TRACKING_INCREMENT = 0 ∧
      ∀ fuel, ∀ s1 ∈ deallocation_loop_states fuel example_state_many.destructor_release,
        s1.stream_memory_allocations_tracked % STREAM_MEMORY_TRACKING_INCREMENT = 0) :=
  ⟨rfl, rfl, rfl, tracked_multiple_of_increment 100 (fresh 64 ⟨1, 1, 0, 0⟩) example_calls_many
    example_state_many rfl rfl⟩

/-- C9 as stated fails: on a fresh flow one block is tracked and no block is needed; and
after 26 creations and one deletion two blocks are tracked while the 25 concurrent streams
need one. -/
theorem tracked_ne_blocks_needed :
    ((fresh 64 ⟨1, 1, 0, 0⟩).stream_memory_allocations_tracked / 25 = 1 ∧
      blocks_needed (fresh 64 ⟨1, 1, 0, 0⟩).concurrent_streams = 0) ∧
    (run 100 (fresh 64 ⟨1, 1, 0, 0⟩) example_calls_many = some example_state_many ∧
      example_state_many.stream_memory_allocations_tracked / 25 = 2 ∧
      blocks_needed example_state_many.concurrent_streams = 1) := by
  decide

/-- C9, amended: in every state reachable from a fresh flow by `get_processing_stream`
calls and by `delete_processing_stream` calls for streams other than stream 0,
`stream_memory_allocations_tracked` is a multiple of 25 and
`stream_memory_allocations_tracked / 25` is the larger of 1 and the number of blocks needed
for the largest value that `concurrent_streams` has had so far; so it is never less than
the number of blocks needed for the current number of concurrent streams.  In a build
with `NDEBUG` every such sequence of calls completes and ends in such a state; in a build
with assertions every such sequence that completes does. -/
theorem tracked_eq_blocks_of_peak (limit sz : Nat) (pegs : PegCounts) (calls : List Call)
    (hlimit : limit < 4294967296)
    (hcalls : ∀ c ∈ calls, c.is_stream_call = true ∧ c ≠ Call.delete_processing_stream 0) :
    (∃ s, run_ndebug limit (fresh sz pegs) calls = some s ∧
      s.stream_memory_allocations_tracked % 25 = 0 ∧
      s.stream_memory_allocations_tracked / 25 =
        max 1 (blocks_needed (peak_concurrent_streams_ndebug limit (fresh sz pegs) calls)) ∧
      blocks_needed s.concurrent_streams ≤ s.stream_memory_allocations_tracked / 25) ∧
    (∀ s, run limit (fresh sz pegs) calls = some s →
      s.stream_memory_allocations_tracked % 25 = 0 ∧
      s.stream_memory_allocations_tracked / 25 =
        max 1 (blocks_needed (peak_concurrent_streams limit (fresh sz pegs) calls)) ∧
      blocks_needed s.concurrent_streams ≤ s.stream_memory_allocations_tracked / 25) := by
  have h0 : (fresh sz pegs).stream_memory_allocations_tracked = 25 := rfl
  constructor
  · obtain ⟨s, hrun, hinv, htr⟩ := run_ndebug_tracked_peak limit hlimit calls (fresh sz pegs)
      hcalls (by simp [counters_in_step, fresh, nonzero_streams,
        STREAM_MEMORY_TRACKING_INCREMENT])
    obtain ⟨_, hle, _, _, _⟩ := hinv
    rw [h0] at htr
    refine ⟨s, hrun, ?_⟩
    unfold blocks_needed STREAM_MEMORY_TRACKING_INCREMENT
    omega
  · intro s hrun
    obtain ⟨h1, h2⟩ := run_tracked_peak limit calls (fresh sz pegs) s
      (fun c hc => (hcalls c hc).1)
      (by simp [fresh, STREAM_MEMORY_TRACKING_INCREMENT]) (by simp [fresh]) hrun
    rw [h0] at h1
    unfold blocks_needed STREAM_MEMORY_TRACKING_INCREMENT
    omega

/-- Witness for C9: after 26 creations and the deletion of stream 1 the peak of
`concurrent_streams` is 26, which needs two blocks, and two blocks are tracked, in both
builds. -/
theorem tracked_eq_blocks_of_peak_witness :
    run_ndebug 100 (fresh 64 ⟨1, 1, 0, 0⟩) example_calls_many = some example_state_many ∧
    run 100 (fresh 64 ⟨1, 1, 0, 0⟩) example_calls_many = some example_state_many ∧
    peak_concurrent_streams_ndebug 100 (fresh 64 ⟨1, 1, 0, 0⟩) example_calls_many = 26 ∧
    example_state_many.stream_memory_allocations_tracked / 25 = 2 ∧
    ((∃ s, run_ndebug 100 (fresh 64 ⟨1, 1, 0, 0⟩) example_calls_many = some s ∧
      s.stream_memory_allocations_tracked % 25 = 0 ∧
      s.stream_memory_allocations_tracked / 25 =
        max 1 (blocks_needed
          (peak_concurrent_streams_ndebug 100 (fresh 64 ⟨1, 1, 0, 0⟩) example_calls_many)) ∧
      blocks_needed s.concurrent_streams ≤ s.stream_memory_allocations_tracked / 25) ∧
     (∀ s, run 100 (fresh 64 ⟨1, 1, 0, 0⟩) example_calls_many = some s →
      s.stream_memory_allocations_tracked % 25 = 0 ∧
      s.stream_memory_allocations_tracked / 25 =
        max 1 (blocks_needed
          (peak_concurrent_streams 100 (fresh 64 ⟨1, 1, 0, 0⟩) example_calls_many)) ∧
      blocks_needed s.concurrent_streams ≤ s.stream_memory_allocations_tracked / 25)) :=
  ⟨rfl, rfl, rfl, rfl, tracked_eq_blocks_of_peak 100 64 ⟨1, 1, 0, 0⟩ example_calls_many
    (by decide) (by decide)⟩

/-- C10: for every flow reached from a fresh one by `get_processing_stream` and
`delete_processing_stream` calls, the destructor completes and de-accounts every block of
stream memory that was charged: nothing was released before it, it makes as many releases
as charges were made, the amounts released are the amounts charged, and
`stream_memory_allocations_tracked` ends at one increment. -/
theorem destructor_balances (limit sz : Nat) (pegs : PegCounts) (calls : List Call)
    (s : Http2FlowData)
    (hcalls : ∀ c ∈ calls, c.is_stream_call = true)
    (hrun : run limit (fresh sz pegs) calls = some s) :
    s.deallocations = [] ∧
    ∃ s1, s.destructor = some s1 ∧
      s1.allocations = s.allocations ∧
      s1.deallocations.length = s.allocations.length ∧
      s1.deallocations = s1.allocations ∧
      s1.deallocations.sum = s1.allocations.sum ∧
      s1.stream_memory_allocations_tracked = STREAM_MEMORY_TRACKING_INCREMENT := by
  obtain ⟨hde, hsz, _, k, hal, htr⟩ := run_charges limit calls (fresh sz pegs) s hcalls
    (by simp [fresh]) hrun
  have hde0 : s.deallocations = [] := hde
  have hal0 : s.allocations = List.replicate k (fresh sz pegs).stream_increment_memory_size := by
    rw [hal]; simp [fresh]
  have htr0 : s.stream_memory_allocations_tracked =
      STREAM_MEMORY_TRACKING_INCREMENT + STREAM_MEMORY_TRACKING_INCREMENT * k := htr
  have hrel : ∀ t : Http2FlowData,
      t.destructor_release.stream_memory_allocations_tracked =
        t.stream_memory_allocations_tracked ∧
      t.destructor_release.deallocations = t.deallocations ∧
      t.destructor_release.allocations = t.allocations ∧
      t.destructor_release.stream_memory_size = t.stream_memory_size := by
    intro t
    unfold destructor_release
    split_ifs <;> exact ⟨rfl, rfl, rfl, rfl⟩
  obtain ⟨r1, r2, r3, r4⟩ := hrel s
  obtain ⟨s1, h1, h2, h3, h4⟩ := deallocation_loop_spec
    s.destructor_release.stream_memory_allocations_tracked s.destructor_release k
    (by rw [r1, htr0]; unfold STREAM_MEMORY_TRACKING_INCREMENT; omega)
    (by rw [r1, htr0])
  have hinc : s.destructor_release.stream_increment_memory_size =
      (fresh sz pegs).stream_increment_memory_size := by
    unfold stream_increment_memory_size
    rw [r4, hsz]
  have hd : s1.deallocations = s.allocations := by
    rw [h3, r2, hde0, hinc, hal0]; simp
  have ha : s1.allocations = s.allocations := by rw [h4, r3]
  refine ⟨hde0, s1, h1, ha, by rw [hd], by rw [hd, ha], by rw [hd, ha], h2⟩

/-- Witness for C10: after 26 creations and one deletion one block of 1600 bytes has been
charged; the destructor releases one block of 1600 bytes and one increment is tracked. -/
theorem destructor_balances_witness :
    run 100 (fresh 64 ⟨1, 1, 0, 0⟩) example_calls_many = some example_state_many ∧
    example_state_many.allocations = [1600] ∧
    example_state_many.destructor.map (fun s1 => s1.deallocations) = some [1600] ∧
    (example_state_many.deallocations = [] ∧
     ∃ s1, example_state_many.destructor = some s1 ∧
      s1.allocations = example_state_many.allocations ∧
      s1.deallocations.length = example_state_many.allocations.length ∧
      s1.deallocations = s1.allocations ∧
      s1.deallocations.sum = s1.allocations.sum ∧
      s1.stream_memory_allocations_tracked = STREAM_MEMORY_TRACKING_INCREMENT) :=
  ⟨rfl, rfl, rfl, destructor_balances 100 64 ⟨1, 1, 0, 0⟩ example_calls_many
    example_state_many (by decide) rfl⟩

/-- C11 as stated fails: the server sends a PUSH_PROMISE on stream 1 whose promised id is
rejected (`BadPushPromise` is reported, `NO_STREAM_ID` is returned); after
`set_processing_stream_id` the processing stream id is 1, the current stream of the side,
not `NO_STREAM_ID`. -/
theorem processing_stream_id_not_kept :
    example_state_push_promise.processing_stream_id = NO_STREAM_ID ∧
    example_state_push_promise.frame_type.get SourceId.SRC_SERVER =
      FrameType.FT_PUSH_PROMISE ∧
    (example_rejecting_promise [] [] [0, 0, 0, 0] 4).id = NO_STREAM_ID ∧
    Infraction.INF_BAD_PUSH_PROMISE ∈
      (example_rejecting_promise [] [] [0, 0, 0, 0] 4).infractions ∧
    (set_processing_stream_id example_rejecting_promise example_state_push_promise
      SourceId.SRC_SERVER).map (fun s1 => s1.processing_stream_id) = some 1 ∧
    (1 : Nat) ≠ NO_STREAM_ID := by
  decide

/-- C11, amended: for every side and every state with
`processing_stream_id = NO_STREAM_ID`: if the current frame is a PUSH_PROMISE whose
promised stream id is rejected (`get_promised_stream_id` reports `BadPushPromise` and
yields `NO_STREAM_ID`), then `set_processing_stream_id` completes and afterwards
`processing_stream_id` is `current_stream` of the side, the stream that carries the frame;
the report of `BadPushPromise` is kept on the side. -/
theorem processing_stream_id_of_rejected_promise
    (get_promised_stream_id : List EventSid → List Infraction → List Nat → Nat →
      PromisedStreamId)
    (s : Http2FlowData) (source_id : SourceId)
    (hno : s.processing_stream_id = NO_STREAM_ID)
    (hft : s.frame_type.get source_id = FrameType.FT_PUSH_PROMISE)
    (hid : (get_promised_stream_id (s.events.get source_id) (s.infractions.get source_id)
      (s.frame_data.get source_id) (s.frame_data_size.get source_id)).id = NO_STREAM_ID)
    (hbad : Infraction.INF_BAD_PUSH_PROMISE ∈
      (get_promised_stream_id (s.events.get source_id) (s.infractions.get source_id)
        (s.frame_data.get source_id) (s.frame_data_size.get source_id)).infractions) :
    ∃ s1, set_processing_stream_id get_promised_stream_id s source_id = some s1 ∧
      s1.processing_stream_id = s.current_stream.get source_id ∧
      Infraction.INF_BAD_PUSH_PROMISE ∈ s1.infractions.get source_id ∧
      s1.streams = s.streams ∧
      s1.concurrent_streams = s.concurrent_streams := by
  unfold set_processing_stream_id
  rw [if_neg (fun hn => hn hno)]
  simp only [hft, if_true, hid]
  refine ⟨_, rfl, rfl, ?_, rfl, rfl⟩
  simp only [Sides_get_set, if_true]
  exact hbad

/-- Witness for C11: the PUSH_PROMISE of the server on stream 1 with a rejected promised
id; the processing stream id becomes 1. -/
theorem processing_stream_id_of_rejected_promise_witness :
    example_state_push_promise.current_stream.get SourceId.SRC_SERVER = 1 ∧
    ∃ s1, set_processing_stream_id example_rejecting_promise example_state_push_promise
        SourceId.SRC_SERVER = some s1 ∧
      s1.processing_stream_id =
        example_state_push_promise.current_stream.get SourceId.SRC_SERVER ∧
      Infraction.INF_BAD_PUSH_PROMISE ∈ s1.infractions.get SourceId.SRC_SERVER ∧
      s1.streams = example_state_push_promise.streams ∧
      s1.concurrent_streams = example_state_push_promise.concurrent_streams :=
  ⟨rfl, processing_stream_id_of_rejected_promise example_rejecting_promise
    example_state_push_promise SourceId.SRC_SERVER rfl rfl rfl (by decide)⟩

/-- C12 as stated fails: on a fresh flow the client sends HEADERS on stream 2; the stream is
not in the table, the call creates it, and `max_stream_id` of the client is 0 afterwards,
not 2. -/
theorem max_stream_id_not_raised :
    ((fresh 64 ⟨1, 1, 0, 0⟩).at_frame SourceId.SRC_CLIENT 2 FrameType.FT_HEADERS).find_stream 2
      = none ∧
    ((fresh 64 ⟨1, 1, 0, 0⟩).at_frame SourceId.SRC_CLIENT 2
        FrameType.FT_HEADERS).get_processing_stream SourceId.SRC_CLIENT 100 =
      some (example_state_even, some { stream_id := 2 }) ∧
    example_state_even.max_stream_id.get SourceId.SRC_CLIENT = 0 := by
  decide

/-- C12, amended: for every side and every id > 0, whenever `get_processing_stream` creates
a new stream with that id for a non-housekeeping frame on the side: if the parity of the
id matches the side (odd for the client, even for the server), `max_stream_id` of the side
was below the id and equals the id after the call; if it does not match, `max_stream_id`
is unchanged. -/
theorem max_stream_id_after_creation (s s1 : Http2FlowData) (source_id : SourceId)
    (limit : Nat) (stream : Http2Stream)
    (hpos : 0 < s.processing_stream_id)
    (hnot : s.find_stream s.processing_stream_id = none)
    (hft : non_housekeeping (s.frame_type.get source_id) = true)
    (hget : s.get_processing_stream source_id limit = some (s1, some stream)) :
    (on_expected_side source_id s.processing_stream_id →
      s.max_stream_id.get source_id < s.processing_stream_id ∧
      s1.max_stream_id.get source_id = s.processing_stream_id) ∧
    (¬ on_expected_side source_id s.processing_stream_id →
      s1.max_stream_id = s.max_stream_id) := by
  obtain ⟨_, s0, ha, hcase⟩ := get_processing_stream_created s s1 source_id limit stream hnot hget
  have hmax := (allocate_new_stream_spec _ _ _ _ ha).2.2.2.2.2.2.1
  rcases hcase with ⟨h0, _⟩ | ⟨_, _, hside, hlt, rfl⟩ | ⟨_, _, hside, rfl⟩ | ⟨_, hf, _⟩
  · omega
  · refine ⟨fun _ => ⟨hlt, ?_⟩, fun hn => absurd hside hn⟩
    rw [hmax]
    simp [Sides_get_set]
  · exact ⟨fun h => absurd h hside, fun _ => hmax⟩
  · rw [hft] at hf
    exact absurd hf (by simp)

/-- Witness for C12: on a fresh flow the client sends HEADERS on stream 3; the stream is
created and `max_stream_id` of the client, 0 before, is 3. -/
theorem max_stream_id_after_creation_witness :
    example_frame_headers.get_processing_stream SourceId.SRC_CLIENT 100 =
      some (example_state_three, some { stream_id := 3 }) ∧
    example_frame_headers.max_stream_id.get SourceId.SRC_CLIENT <
      example_frame_headers.processing_stream_id ∧
    example_state_three.max_stream_id.get SourceId.SRC_CLIENT =
      example_frame_headers.processing_stream_id :=
  ⟨rfl, (max_stream_id_after_creation example_frame_headers example_state_three
    SourceId.SRC_CLIENT 100 { stream_id := 3 } (by decide) rfl rfl rfl).1
    (Or.inl ⟨by decide, rfl⟩)⟩

/-- C13 fails on the code: with limit 2, streams 1 and 3 open and stream 0 not in the table,
`get_processing_stream` for a SETTINGS frame of the client on stream 0 returns no stream,
raises `TooManyStreams` and sets `abort_flow` for both directions: the check of the limit
(source line 164) has no test of the key, although stream 0 is not to count against the
stream limit (comment at source line 211). -/
theorem stream_zero_refused :
    example_state_two.concurrent_streams = 2 ∧
    example_frame_settings_full.processing_stream_id = 0 ∧
    example_frame_settings_full.find_stream 0 = none ∧
    example_frame_settings_full.get_processing_stream SourceId.SRC_CLIENT 2 =
      some (example_state_refused_zero, none) ∧
    Infraction.INF_TOO_MANY_STREAMS ∈
      example_state_refused_zero.infractions.get SourceId.SRC_CLIENT ∧
    example_state_refused_zero.abort_flow = ⟨true, true⟩ := by
  decide

/-- C14 as stated fails: on a fresh flow the client sends SETTINGS, a housekeeping frame, on
stream 0; the stream is not in the table, the call creates it, and `delete_stream` is
false afterwards. -/
theorem delete_stream_not_set :
    non_housekeeping (example_frame_settings.frame_type.get SourceId.SRC_CLIENT) = false ∧
    example_frame_settings.find_stream example_frame_settings.processing_stream_id = none ∧
    example_frame_settings.get_processing_stream SourceId.SRC_CLIENT 100 =
      some (example_state_zero, some { stream_id := 0 }) ∧
    example_state_zero.delete_stream = false := by
  decide

/-- C14, amended: for every side and every id other than 0, whenever
`get_processing_stream` creates a new stream for a housekeeping frame (a frame type other
than HEADERS, DATA and PUSH_PROMISE), `delete_stream` is true after the call. -/
theorem delete_stream_after_housekeeping (s s1 : Http2FlowData) (source_id : SourceId)
    (limit : Nat) (stream : Http2Stream)
    (hne : s.processing_stream_id ≠ 0)
    (hnot : s.find_stream s.processing_stream_id = none)
    (hft : non_housekeeping (s.frame_type.get source_id) = false)
    (hget : s.get_processing_stream source_id limit = some (s1, some stream)) :
    s1.delete_stream = true ∧ stream.stream_id = s.processing_stream_id ∧
      s1.find_stream s.processing_stream_id = some stream := by
  obtain ⟨_, s0, ha, hcase⟩ := get_processing_stream_created s s1 source_id limit stream hnot hget
  obtain ⟨hr, hstreams, _, _, _, _, _, hdel, _⟩ := allocate_new_stream_spec _ _ _ _ ha
  have hst : stream = { stream_id := s.processing_stream_id } := by
    simpa using hr
  refine ⟨?_, by rw [hst], ?_⟩
  · rcases hcase with ⟨h0, _⟩ | ⟨_, hf, _⟩ | ⟨_, hf, _⟩ | ⟨_, _, rfl⟩
    · exact absurd h0 hne
    · rw [hft] at hf; exact absurd hf (by simp)
    · rw [hft] at hf; exact absurd hf (by simp)
    · rw [hdel]
  · show find_in s1.streams s.processing_stream_id = some stream
    rw [hstreams, hst]
    simp [find_in]

/-- Witness for C14: on a fresh flow the client sends WINDOW_UPDATE on stream 7; the stream
is created and `delete_stream` is true. -/
theorem delete_stream_after_housekeeping_witness :
    example_frame_window_update.get_processing_stream SourceId.SRC_CLIENT 100 =
      some (example_state_housekeeping, some { stream_id := 7 }) ∧
    (example_state_housekeeping.delete_stream = true ∧
      ({ stream_id := 7 } : Http2Stream).stream_id =
        example_frame_window_update.processing_stream_id ∧
      example_state_housekeeping.find_stream example_frame_window_update.processing_stream_id =
        some { stream_id := 7 }) :=
  ⟨rfl, delete_stream_after_housekeeping example_frame_window_update
    example_state_housekeeping SourceId.SRC_CLIENT 100 { stream_id := 7 }
    (by decide) rfl rfl rfl⟩

/-- C15: in every state reachable from a fresh flow by `get_processing_stream` and
`delete_processing_stream` calls, `concurrent_streams <= stream_memory_allocations_tracked`
and the tracked amount is not zero; hence every call of `get_processing_stream` completes,
that is, no assertion of `update_stream_memory_allocations` fails in it; and whenever the
call has changed the tracked amount, which only `update_stream_memory_allocations` does,
then in the state in which that function was called (`concurrent_streams` as after the
call, the tracked amount as before it) the tracked amount is not zero, `concurrent_streams`
is greater, its remainder is 1, and it is exactly one above the tracked amount. -/
theorem allocation_assertions_hold (limit sz : Nat) (pegs : PegCounts) (calls : List Call)
    (s : Http2FlowData)
    (hcalls : ∀ c ∈ calls, c.is_stream_call = true)
    (hrun : run limit (fresh sz pegs) calls = some s) :
    s.concurrent_streams ≤ s.stream_memory_allocations_tracked ∧
    s.stream_memory_allocations_tracked ≠ 0 ∧
    ∀ (source_id : SourceId) (key : Nat) (ft : FrameType),
      ∃ s1 r, (s.at_frame source_id key ft).get_processing_stream source_id limit =
          some (s1, r) ∧
        (s1.stream_memory_allocations_tracked ≠ s.stream_memory_allocations_tracked →
          s.stream_memory_allocations_tracked ≠ 0 ∧
          s1.concurrent_streams > s.stream_memory_allocations_tracked ∧
          s1.concurrent_streams % s.stream_memory_allocations_tracked = 1 ∧
          s1.concurrent_streams = s.stream_memory_allocations_tracked + 1 ∧
          s1.stream_memory_allocations_tracked =
            s.stream_memory_allocations_tracked + STREAM_MEMORY_TRACKING_INCREMENT) := by
  obtain ⟨h1, h2⟩ := run_tracked_peak limit calls (fresh sz pegs) s hcalls
    (by simp [fresh, STREAM_MEMORY_TRACKING_INCREMENT]) (by simp [fresh]) hrun
  have h0 : (fresh sz pegs).stream_memory_allocations_tracked = 25 := rfl
  rw [h0] at h1
  have h25 : 25 ≤ s.stream_memory_allocations_tracked := by omega
  refine ⟨h2, by omega, fun source_id key ft => ?_⟩
  exact get_processing_stream_completes (s.at_frame source_id key ft) source_id limit
    h2 (by show 2 ≤ s.stream_memory_allocations_tracked; omega)

/-- Witness for C15: after 25 creations 25 streams are open and 25 are tracked; the creation
of stream 51 calls `update_stream_memory_allocations` with `concurrent_streams = 26`, and
ends with 50 tracked. -/
theorem allocation_assertions_hold_witness :
    run 100 (fresh 64 ⟨1, 1, 0, 0⟩) example_calls_block = some example_state_block ∧
    ((example_state_block.at_frame SourceId.SRC_CLIENT 51
        FrameType.FT_HEADERS).get_processing_stream SourceId.SRC_CLIENT 100).map
      (fun p => (p.1.concurrent_streams, p.1.stream_memory_allocations_tracked)) =
      some (26, 50) ∧
    (example_state_block.concurrent_streams ≤
        example_state_block.stream_memory_allocations_tracked ∧
     example_state_block.stream_memory_allocations_tracked ≠ 0 ∧
     ∀ (source_id : SourceId) (key : Nat) (ft : FrameType),
      ∃ s1 r, (example_state_block.at_frame source_id key ft).get_processing_stream
          source_id 100 = some (s1, r) ∧
        (s1.stream_memory_allocations_tracked ≠
            example_state_block.stream_memory_allocations_tracked →
          example_state_block.stream_memory_allocations_tracked ≠ 0 ∧
          s1.concurrent_streams > example_state_block.stream_memory_allocations_tracked ∧
          s1.concurrent_streams % example_state_block.stream_memory_allocations_tracked = 1 ∧
          s1.concurrent_streams = example_state_block.stream_memory_allocations_tracked + 1 ∧
          s1.stream_memory_allocations_tracked =
            example_state_block.stream_memory_allocations_tracked +
              STREAM_MEMORY_TRACKING_INCREMENT)) :=
  ⟨rfl, rfl, allocation_assertions_hold 100 64 ⟨1, 1, 0, 0⟩ example_calls_block
    example_state_block (by decide) rfl⟩

end Http2FlowData

end Snort
